import Mathlib

/-!
# Weft runtime actor kernel — shallow embedding

This file embeds the actor kernel of `runtime-ts/src/index.ts`:
the capability tokens and effect facade (`bindCaps`, `assertEffect`),
and the actor system (`Mailbox`, `spawn`, `dispatch`, `handleCrash`,
`stop`) as a small-step state machine driven by explicit commands.

Asynchronous execution is modelled by a scheduler: JavaScript awaits
(`onMessage`, `init`, the backoff timer) correspond to explicit `step`
commands, and wall-clock progress (`Date.now()` / `setTimeout`) to
`tick` commands.  Errors thrown by kernel entry points (`spawn`,
`Mailbox.send`) are recorded as log events with the state otherwise
unchanged, mirroring a synchronous throw.
-/

namespace Weft

/-- The closed effect enumeration of the runtime
(`"Db" | "Net" | "Now" | "Kms" | "Serial"`). -/
inductive Effect
  | Db | Net | Now | Kms | Serial
deriving DecidableEq, Repr

/-- `CapabilityToken` from the source: module name, granted effects,
issuance timestamp and dev flag. -/
structure CapabilityToken where
  module : String
  effects : List Effect
  issuedAt : Nat
  devOnly : Bool
deriving DecidableEq, Repr

/-- The payload of the error thrown by `assertEffect`
(`Effect ${e} not granted for module ${cap.module}`): it names the
missing effect and the token's module. -/
structure CapError where
  effect : Effect
  module : String
deriving DecidableEq, Repr

/-- `hasEffect` from the source: `cap.effects.includes(e)`. -/
def hasEffect (cap : CapabilityToken) (e : Effect) : Bool :=
  cap.effects.contains e

/-- `assertEffect` from the source: throws when the effect is not
granted, modelled as `Except`. -/
def assertEffect (cap : CapabilityToken) (e : Effect) : Except CapError Unit :=
  if hasEffect cap e then Except.ok () else Except.error ⟨e, cap.module⟩

/-- The injected low-level implementations, one per effect
(the `lowDb`/`lowNet`/`lowNow`/`lowKms`/`lowSerial` modules).  `σ` is
the (opaque) result type of a low-level call. -/
structure LowImpls (σ : Type) where
  dbQuery : String → List String → σ
  netGet : String → σ
  nowNow : Unit → σ
  kmsDecrypt : String → σ
  serialReadLine : Unit → σ

/-- Result of one facade call: the value or capability error, together
with how many times the low-level implementation was invoked (the
call-counting stub of the spec's testable property). -/
structure FacadeResult (σ : Type) where
  result : Except CapError σ
  lowCalls : Nat

/-- The facade object returned by `bindCaps`: one gated method per
effect kind. -/
structure Facade (σ : Type) where
  dbQuery : String → List String → FacadeResult σ
  netGet : String → FacadeResult σ
  nowNow : Unit → FacadeResult σ
  kmsDecrypt : String → FacadeResult σ
  serialReadLine : Unit → FacadeResult σ

/-- `bindCaps` from the source: each method asserts its effect and only
then delegates to the injected low-level implementation. -/
def bindCaps {σ : Type} (cap : CapabilityToken) (low : LowImpls σ) : Facade σ where
  dbQuery := fun sql params =>
    match assertEffect cap .Db with
    | Except.error err => ⟨Except.error err, 0⟩
    | Except.ok _ => ⟨Except.ok (low.dbQuery sql params), 1⟩
  netGet := fun url =>
    match assertEffect cap .Net with
    | Except.error err => ⟨Except.error err, 0⟩
    | Except.ok _ => ⟨Except.ok (low.netGet url), 1⟩
  nowNow := fun u =>
    match assertEffect cap .Now with
    | Except.error err => ⟨Except.error err, 0⟩
    | Except.ok _ => ⟨Except.ok (low.nowNow u), 1⟩
  kmsDecrypt := fun c =>
    match assertEffect cap .Kms with
    | Except.error err => ⟨Except.error err, 0⟩
    | Except.ok _ => ⟨Except.ok (low.kmsDecrypt c), 1⟩
  serialReadLine := fun u =>
    match assertEffect cap .Serial with
    | Except.error err => ⟨Except.error err, 0⟩
    | Except.ok _ => ⟨Except.ok (low.serialReadLine u), 1⟩

/-- Canonical arguments for invoking the facade method of any effect. -/
structure FacadeArgs where
  sql : String
  params : List String
  url : String
  ciphertext : String
deriving DecidableEq, Repr

/-- Dispatch on an effect to the facade method that requires it. -/
def callFacadeFor {σ : Type} (f : Facade σ) (a : FacadeArgs) : Effect → FacadeResult σ
  | .Db => f.dbQuery a.sql a.params
  | .Net => f.netGet a.url
  | .Now => f.nowNow ()
  | .Kms => f.kmsDecrypt a.ciphertext
  | .Serial => f.serialReadLine ()

/-- The `now` accessor placed on the `ActorContext` by `spawn`
(`now: () => Date.now()`): given the current wall clock it returns it,
with no capability check.  The `Except` codomain records that it can
never raise a `CapError`. -/
def ctxNow (t : Nat) : Except CapError Nat :=
  Except.ok t

/-- `ActorContext` as built by `spawn`: the token, the bound facade and
the ungated clock accessor. -/
structure ActorCtx (σ : Type) where
  cap : CapabilityToken
  caps : Facade σ
  now : Nat → Except CapError Nat

/-- The context construction inside `spawn`:
`{ cap, system: this, caps: bindCaps(cap), now: () => Date.now() }`. -/
def mkCtx {σ : Type} (cap : CapabilityToken) (low : LowImpls σ) : ActorCtx σ :=
  ⟨cap, bindCaps cap low, ctxNow⟩

/-! ## Actor system state machine -/

/-- `Message` from the source (`{ type: string; payload?: unknown }`);
the opaque payload is modelled as a natural number. -/
structure Message where
  type : String
  payload : Nat
deriving DecidableEq, Repr

/-- The three crash dispositions an `onCrash` hook may return. -/
inductive Disposition
  | resume | restart | stop
deriving DecidableEq, Repr

/-- An actor module (the `Actor` interface).  The handler bodies are
arbitrary user code that may throw; they are modelled by their
observable outcomes: `initThrowsOn k` says whether the `k`-th `init`
invocation throws, `msgThrowsOn k m` whether the `k`-th `onMessage`
invocation (on message `m`) throws, and `onCrash` is the optional hook,
indexed by how many times it has been called. -/
structure ActorSpec where
  name : String
  hasInit : Bool
  initThrowsOn : Nat → Bool
  msgThrowsOn : Nat → Message → Bool
  onCrash : Option (Nat → Disposition)

/-- `RestartPolicy` from the source. -/
structure RestartPolicy where
  maxRestarts : Nat
  windowMs : Nat
  backoffMs : Nat
deriving DecidableEq, Repr

/-- `DEFAULT_POLICY = { maxRestarts: 3, windowMs: 60_000, backoffMs: 250 }`. -/
def DEFAULT_POLICY : RestartPolicy :=
  ⟨3, 60000, 250⟩

/-- The `Mailbox` capacity: the constructor's default `max = 1024`,
which is what `ActorSystem.spawn` always uses. -/
def mailboxMax : Nat := 1024

/-- Where a live actor stands in its mailbox/crash processing.
`idle` is `busy = false`; `draining` is a flush loop in progress
(`busy = true`) about to dequeue the next message; `backoff untilT rd`
is `handleCrash` waiting on its `setTimeout` until time `untilT`, with
`rd` recording whether a mailbox drain is suspended underneath (crash
came from `dispatch`) and so resumes afterwards. -/
inductive Status
  | idle
  | draining
  | backoff (untilT : Nat) (resumeDrain : Bool)
deriving DecidableEq, Repr

/-- `LiveActor` from the source, with the scheduler bookkeeping: the
queue is the mailbox `q`, `crashes` the crash timestamps, and the three
counters index the behaviour functions of `ActorSpec` (how many
`onMessage` / `onCrash` / `init` invocations have happened). -/
structure LiveActor where
  spec : ActorSpec
  cap : CapabilityToken
  crashes : List Nat
  q : List Message
  status : Status
  msgIdx : Nat
  crashIdx : Nat
  initIdx : Nat

/-- Observable events of a run.  Actors are identified by their spawn
index `i` (the handle returned by `spawn` closes over the `LiveActor`
record, so it keeps working even after the name is deleted from the
registry; the index models that closure).  `spawnRejected` is the
`ActorAlreadyExists` throw, `overflow` the `MailboxOverflow` throw,
`escape` an error that propagates out of the kernel as an unhandled
rejection. -/
inductive Ev
  | spawned (i : Nat) (name : String)
  | spawnRejected (name : String)
  | enq (i : Nat) (m : Message)
  | overflow (i : Nat) (m : Message)
  | msgStart (i : Nat) (m : Message)
  | msgEnd (i : Nat) (m : Message)
  | msgThrow (i : Nat) (m : Message)
  | crash (i : Nat) (d : Disposition)
  | initStart (i : Nat)
  | initOk (i : Nat)
  | initThrew (i : Nat)
  | escape (i : Nat)
  | stopped (name : String)
deriving DecidableEq, Repr

/-- Whole-system state: all `LiveActor` records ever spawned (indexed
by spawn order — handles refer to these), the name registry (the
`actors` map, as an association list name ↦ index), the wall clock,
the restart policy and the event log. -/
structure SysState where
  live : List LiveActor
  registry : List (String × Nat)
  time : Nat
  policy : RestartPolicy
  log : List Ev

/-- Registry lookup (`this.actors.get(name)`-style). -/
def lookupReg : List (String × Nat) → String → Option Nat
  | [], _ => none
  | p :: rest, n => if p.1 = n then some p.2 else lookupReg rest n

/-- `ActorSystem.stop`: `this.actors.delete(name)` — it only removes
the registry entry; the `LiveActor` records (and hence any retained
handles and their mailboxes) are untouched. -/
def stopSys (s : SysState) (name : String) : SysState :=
  { s with registry := s.registry.filter (fun p => p.1 ≠ name),
           log := s.log ++ [Ev.stopped name] }

/-- Lines 117–118 of `handleCrash`: prune `crashes` to the entries with
`now - ts <= windowMs`, then push the current timestamp. -/
def recordCrash (crashes : List Nat) (now windowMs : Nat) : List Nat :=
  crashes.filter (fun ts => now - ts ≤ windowMs) ++ [now]

/-- Line 113 of the source: `live.actor.onCrash?.(live.ctx, err) ?? "restart"` —
the hook's answer, defaulting to restart when no hook is defined. -/
def crashDisposition (la : LiveActor) : Disposition :=
  match la.spec.onCrash with
  | some hook => hook la.crashIdx
  | none => Disposition.restart

/-- The body of `handleCrash` once the `LiveActor` record `la` has been
found.  `resumeDrain` tells whether the call came from `dispatch`
inside a mailbox drain (so returning resumes the drain) or from the
spawn-time `init` wrapper.  The backoff wait and the re-run of `init`
happen later, which the `backoff` status records. -/
def handleCrashUpd (s : SysState) (i : Nat) (la0 : LiveActor) (resumeDrain : Bool) : SysState :=
  let la := { la0 with crashIdx := la0.crashIdx + 1 }
  match crashDisposition la0 with
  | Disposition.resume =>
    { s with live := s.live.set i { la with status := if resumeDrain then Status.draining else Status.idle },
             log := s.log ++ [Ev.crash i Disposition.resume] }
  | Disposition.stop =>
    { s with live := s.live.set i { la with status := if resumeDrain then Status.draining else Status.idle },
             registry := s.registry.filter (fun p => p.1 ≠ la.spec.name),
             log := s.log ++ [Ev.crash i Disposition.stop, Ev.stopped la.spec.name] }
  | Disposition.restart =>
    let crashes := recordCrash la.crashes s.time s.policy.windowMs
    if crashes.length > s.policy.maxRestarts then
      let la2 := { la with crashes := crashes, status := if resumeDrain then Status.draining else Status.idle }
      { s with live := s.live.set i la2,
               registry := s.registry.filter (fun p => p.1 ≠ la.spec.name),
               log := s.log ++ [Ev.crash i Disposition.restart, Ev.stopped la.spec.name] }
    else
      let la2 := { la with crashes := crashes, status := Status.backoff (s.time + s.policy.backoffMs) resumeDrain }
      { s with live := s.live.set i la2,
               log := s.log ++ [Ev.crash i Disposition.restart] }

/-- `handleCrash(live, err)` as a state transition on actor `i`. -/
def handleCrashStep (s : SysState) (i : Nat) (resumeDrain : Bool) : SysState :=
  match s.live.get? i with
  | none => s
  | some la => handleCrashUpd s i la resumeDrain

/-- One scheduler step of actor `i`, covering the suspension points of
the source: a `draining` actor dequeues and handles one message
(`Mailbox.flush` body + `dispatch`), routing a throw to `handleCrash`;
a `backoff` actor whose deadline has passed re-runs `init`
(`handleCrash` after the `setTimeout`) — and a throw from that re-run
is NOT caught anywhere in the source, so it escapes (the `flush` loop
aborts through its `finally`, resetting `busy`). -/
def stepLive (s : SysState) (i : Nat) (la : LiveActor) : SysState :=
  match la.status with
  | Status.idle => s
  | Status.draining =>
    match la.q with
    | [] =>
      { s with live := s.live.set i { la with status := Status.idle } }
    | m :: rest =>
      let la1 := { la with q := rest, msgIdx := la.msgIdx + 1 }
      if la.spec.msgThrowsOn la.msgIdx m then
        let s1 := { s with live := s.live.set i la1,
                           log := s.log ++ [Ev.msgStart i m, Ev.msgThrow i m] }
        handleCrashStep s1 i true
      else
        { s with live := s.live.set i la1,
                 log := s.log ++ [Ev.msgStart i m, Ev.msgEnd i m] }
  | Status.backoff untilT resumeDrain =>
    if s.time < untilT then s
    else if la.spec.hasInit then
      if la.spec.initThrowsOn la.initIdx then
        { s with live := s.live.set i { la with initIdx := la.initIdx + 1, status := Status.idle },
                 log := s.log ++ [Ev.initStart i, Ev.initThrew i, Ev.escape i] }
      else
        let la2 := { la with initIdx := la.initIdx + 1, status := if resumeDrain then Status.draining else Status.idle }
        { s with live := s.live.set i la2,
                 log := s.log ++ [Ev.initStart i, Ev.initOk i] }
    else
      let la2 := { la with status := if resumeDrain then Status.draining else Status.idle }
      { s with live := s.live.set i la2 }

/-- One scheduler step of actor `i` (see `stepLive`). -/
def stepActor (s : SysState) (i : Nat) : SysState :=
  match s.live.get? i with
  | none => s
  | some la => stepLive s i la

/-- `Mailbox.send` through the handle returned by `spawn`
(`send: (msg) => live.mbox.send(msg)`): throws `MailboxOverflow` when
the queue is at capacity, otherwise enqueues and triggers a flush if
one is not already running (the `busy` flag; a drain or a pending
backoff only enqueues).  Nothing on this path consults the registry. -/
def sendLive (s : SysState) (i : Nat) (la : LiveActor) (m : Message) : SysState :=
  if la.q.length ≥ mailboxMax then
    { s with log := s.log ++ [Ev.overflow i m] }
  else
    let la2 := { la with q := la.q ++ [m], status := if la.status = Status.idle then Status.draining else la.status }
    { s with live := s.live.set i la2,
             log := s.log ++ [Ev.enq i m] }

/-- Send through a handle: look up the live record by spawn index
(see `sendLive`). -/
def sendH (s : SysState) (i : Nat) (m : Message) : SysState :=
  match s.live.get? i with
  | none => s
  | some la => sendLive s i la m

/-- The fresh `LiveActor` record built by `spawn`: empty mailbox, empty
crash history. -/
def freshLive (spec : ActorSpec) (cap : CapabilityToken) : LiveActor :=
  { spec := spec, cap := cap, crashes := [], q := [], status := Status.idle,
    msgIdx := 0, crashIdx := 0, initIdx := 0 }

/-- Registration part of `spawn`: append the fresh record and its
registry entry. -/
def spawnBase (s : SysState) (spec : ActorSpec) (cap : CapabilityToken) : SysState :=
  { s with live := s.live ++ [freshLive spec cap],
           registry := s.registry ++ [(spec.name, s.live.length)],
           log := s.log ++ [Ev.spawned s.live.length spec.name] }

/-- Spawn when `init` is present and completes normally. -/
def spawnInitOk (s : SysState) (spec : ActorSpec) (cap : CapabilityToken) : SysState :=
  { spawnBase s spec cap with
      live := (spawnBase s spec cap).live.set s.live.length { freshLive spec cap with initIdx := 1 },
      log := (spawnBase s spec cap).log ++ [Ev.initStart s.live.length, Ev.initOk s.live.length] }

/-- Spawn when `init` is present and throws: the state just before the
`.catch` wrapper routes the error to `handleCrash`. -/
def spawnInitFail (s : SysState) (spec : ActorSpec) (cap : CapabilityToken) : SysState :=
  { spawnBase s spec cap with
      live := (spawnBase s spec cap).live.set s.live.length { freshLive spec cap with initIdx := 1 },
      log := (spawnBase s spec cap).log ++ [Ev.initStart s.live.length, Ev.initThrew s.live.length] }

/-- `ActorSystem.spawn`: rejects an already-registered name with no
state mutation; otherwise registers a fresh `LiveActor` and runs
`init` (if present) with any throw routed to `handleCrash` (the
`.catch` wrapper).  The fire-and-forget `init` is modelled as running
at spawn time. -/
def spawnFresh (s : SysState) (spec : ActorSpec) (cap : CapabilityToken) : SysState :=
  if spec.hasInit then
    if spec.initThrowsOn 0 then
      handleCrashStep (spawnInitFail s spec cap) s.live.length false
    else
      spawnInitOk s spec cap
  else spawnBase s spec cap

/-- `ActorSystem.spawn`: the name check and throw, then the fresh
registration (see `spawnFresh`). -/
def spawnSys (s : SysState) (spec : ActorSpec) (cap : CapabilityToken) : SysState :=
  match lookupReg s.registry spec.name with
  | some _ => { s with log := s.log ++ [Ev.spawnRejected spec.name] }
  | none => spawnFresh s spec cap

/-- External stimuli and scheduler choices driving a run. -/
inductive Cmd
  | spawn (spec : ActorSpec) (cap : CapabilityToken)
  | send (i : Nat) (m : Message)
  | stop (name : String)
  | tick (dt : Nat)
  | step (i : Nat)

/-- Execute one command. -/
def execCmd (s : SysState) : Cmd → SysState
  | Cmd.spawn spec cap => spawnSys s spec cap
  | Cmd.send i m => sendH s i m
  | Cmd.stop name => stopSys s name
  | Cmd.tick dt => { s with time := s.time + dt }
  | Cmd.step i => stepActor s i

/-- Execute a command sequence. -/
def execCmds (s : SysState) (cmds : List Cmd) : SysState :=
  cmds.foldl execCmd s

/-- The empty system at time 0 under a given policy. -/
def initSys (p : RestartPolicy) : SysState :=
  { live := [], registry := [], time := 0, policy := p, log := [] }

/-- A complete run from the empty system. -/
def run (p : RestartPolicy) (cmds : List Cmd) : SysState :=
  execCmds (initSys p) cmds

/-! ## Log projections -/

/-- Project an event to the message it enqueued into actor `i`'s
mailbox, if any. -/
def enqOf (i : Nat) : Ev → Option Message
  | Ev.enq j m => if j = i then some m else none
  | _ => none

/-- Project an event to the message whose `onMessage` invocation for
actor `i` it starts, if any. -/
def startOf (i : Nat) : Ev → Option Message
  | Ev.msgStart j m => if j = i then some m else none
  | _ => none

/-- Messages accepted into actor `i`'s mailbox, in log order. -/
def enqList (log : List Ev) (i : Nat) : List Message :=
  log.filterMap (enqOf i)

/-- Messages for which `onMessage` was invoked on actor `i`, in log
order. -/
def startList (log : List Ev) (i : Nat) : List Message :=
  log.filterMap (startOf i)

/-- Number of `onMessage` invocations recorded for actor `i`. -/
def countStarts (log : List Ev) (i : Nat) : Nat :=
  (startList log i).length

/-- Is this event an error escaping the kernel (unhandled rejection)? -/
def isEscape : Ev → Bool
  | Ev.escape _ => true
  | _ => false

/-- Number of errors that escaped to the host in a log. -/
def countEscapes (log : List Ev) : Nat :=
  (log.filter isEscape).length

/-- The suffix of a log strictly after the first `stopped name` event
(empty if the actor was never stopped). -/
def afterFirstStop (name : String) : List Ev → List Ev
  | [] => []
  | Ev.stopped n :: rest => if n = name then rest else afterFirstStop name rest
  | _ :: rest => afterFirstStop name rest

/-- Is this event part of actor `i`'s handler activity
(invocation start / normal completion / throw)? -/
def handlerOf (i : Nat) : Ev → Bool
  | Ev.msgStart j _ => j == i
  | Ev.msgEnd j _ => j == i
  | Ev.msgThrow j _ => j == i
  | _ => false

/-- Actor `i`'s handler activity, in log order. -/
def handlerEvs (log : List Ev) (i : Nat) : List Ev :=
  log.filter (handlerOf i)

/-- A handler-event sequence is well paired when it is a sequence of
adjacent (start, completion-or-throw) pairs on the same message: no
invocation begins before the previous one has finished. -/
def pairedSeq : List Ev → Bool
  | [] => true
  | Ev.msgStart i m :: e :: rest =>
    (match e with
     | Ev.msgEnd j m2 => i == j && m == m2
     | Ev.msgThrow j m2 => i == j && m == m2
     | _ => false) && pairedSeq rest
  | _ => false

/-! ## Projection lemmas -/

theorem enqList_append (l l' : List Ev) (i : Nat) :
    enqList (l ++ l') i = enqList l i ++ enqList l' i :=
  List.filterMap_append l l' (enqOf i)

theorem startList_append (l l' : List Ev) (i : Nat) :
    startList (l ++ l') i = startList l i ++ startList l' i :=
  List.filterMap_append l l' (startOf i)

theorem handlerEvs_append (l l' : List Ev) (i : Nat) :
    handlerEvs (l ++ l') i = handlerEvs l i ++ handlerEvs l' i :=
  List.filter_append l l'

theorem get_set_same {α : Type} {l : List α} {i : Nat} {a : α} (b : α)
    (h : l.get? i = some a) : (l.set i b).get? i = some b := by
  rw [List.get?_set_eq, h]; rfl

theorem get_set_other {α : Type} {l : List α} {i j : Nat} (b : α) (h : j ≠ i) :
    (l.set j b).get? i = l.get? i :=
  List.get?_set_ne b l h

/-! ## Mailbox accounting invariant

For every spawned actor, the messages accepted into its mailbox are
exactly the messages already delivered to `onMessage` (in order)
followed by the messages still queued; and the log never mentions a
spawn index that does not exist yet.  This is the formal content of
"every accepted message is delivered exactly once, in send order". -/

def Accounted (s : SysState) : Prop :=
  (∀ i la, s.live.get? i = some la → enqList s.log i = startList s.log i ++ la.q)
  ∧ (∀ i, s.live.length ≤ i → enqList s.log i = [] ∧ startList s.log i = [])

theorem accounted_frame {s s2 : SysState} {i : Nat} {la la2 : LiveActor}
    (hget : s.live.get? i = some la)
    (hlive : s2.live = s.live.set i la2) (hq : la2.q = la.q)
    (henq : ∀ j, enqList s2.log j = enqList s.log j)
    (hstart : ∀ j, startList s2.log j = startList s.log j)
    (hacc : Accounted s) : Accounted s2 := by
  obtain ⟨hA, hB⟩ := hacc
  constructor
  · intro j lb hj
    rw [hlive] at hj
    by_cases hij : j = i
    · subst hij
      rw [get_set_same la2 hget] at hj
      cases hj
      rw [henq, hstart, hq]
      exact hA j la hget
    · rw [get_set_other la2 (fun h => hij h.symm)] at hj
      rw [henq, hstart]
      exact hA j lb hj
  · intro j hj
    rw [hlive, List.length_set] at hj
    rw [henq, hstart]
    exact hB j hj

theorem accounted_logFrame {s s2 : SysState} (hacc : Accounted s)
    (hlive : s2.live = s.live)
    (henq : ∀ j, enqList s2.log j = enqList s.log j)
    (hstart : ∀ j, startList s2.log j = startList s.log j) : Accounted s2 := by
  obtain ⟨hA, hB⟩ := hacc
  refine ⟨fun j lb hj => ?_, fun j hj => ?_⟩
  · rw [hlive] at hj
    rw [henq, hstart]
    exact hA j lb hj
  · rw [hlive] at hj
    rw [henq, hstart]
    exact hB j hj

theorem accounted_handleCrashUpd {s : SysState} {i : Nat} {la : LiveActor} (rd : Bool)
    (hget : s.live.get? i = some la)
    (hacc : Accounted s) : Accounted (handleCrashUpd s i la rd) := by
  cases hd : crashDisposition la with
  | resume =>
    simp only [handleCrashUpd, hd]
    exact accounted_frame hget rfl rfl
      (fun j => by simp [enqList_append, enqList, List.filterMap, enqOf])
      (fun j => by simp [startList_append, startList, List.filterMap, startOf]) hacc
  | stop =>
    simp only [handleCrashUpd, hd]
    exact accounted_frame hget rfl rfl
      (fun j => by simp [enqList_append, enqList, List.filterMap, enqOf])
      (fun j => by simp [startList_append, startList, List.filterMap, startOf]) hacc
  | restart =>
    simp only [handleCrashUpd, hd]
    split
    · exact accounted_frame hget rfl rfl
        (fun j => by simp [enqList_append, enqList, List.filterMap, enqOf])
        (fun j => by simp [startList_append, startList, List.filterMap, startOf]) hacc
    · exact accounted_frame hget rfl rfl
        (fun j => by simp [enqList_append, enqList, List.filterMap, enqOf])
        (fun j => by simp [startList_append, startList, List.filterMap, startOf]) hacc

theorem accounted_handleCrashStep {s : SysState} (i : Nat) (rd : Bool)
    (hacc : Accounted s) : Accounted (handleCrashStep s i rd) := by
  unfold handleCrashStep
  cases hget : s.live.get? i with
  | none => exact hacc
  | some la => exact accounted_handleCrashUpd rd hget hacc

theorem accounted_spawnBase {s : SysState} (spec : ActorSpec) (cap : CapabilityToken)
    (hacc : Accounted s) : Accounted (spawnBase s spec cap) := by
  obtain ⟨hA, hB⟩ := hacc
  have hproj : ∀ j, enqList (s.log ++ [Ev.spawned s.live.length spec.name]) j = enqList s.log j
      ∧ startList (s.log ++ [Ev.spawned s.live.length spec.name]) j = startList s.log j := by
    intro j
    constructor
    · simp [enqList_append, enqList, List.filterMap, enqOf]
    · simp [startList_append, startList, List.filterMap, startOf]
  constructor
  · intro j lb hj
    show enqList (s.log ++ [Ev.spawned s.live.length spec.name]) j
      = startList (s.log ++ [Ev.spawned s.live.length spec.name]) j ++ lb.q
    rcases Nat.lt_trichotomy j s.live.length with hlt | heq | hgt
    · rw [show (spawnBase s spec cap).live = s.live ++ [freshLive spec cap] from rfl,
        List.get?_append hlt] at hj
      rw [(hproj j).1, (hproj j).2]
      exact hA j lb hj
    · subst heq
      rw [show (spawnBase s spec cap).live = s.live ++ [freshLive spec cap] from rfl,
        List.get?_concat_length] at hj
      cases hj
      rw [(hproj s.live.length).1, (hproj s.live.length).2,
        (hB s.live.length (Nat.le_refl _)).1, (hB s.live.length (Nat.le_refl _)).2]
      rfl
    · rw [show (spawnBase s spec cap).live = s.live ++ [freshLive spec cap] from rfl] at hj
      rw [List.get?_eq_none.mpr (by simpa using hgt)] at hj
      exact absurd hj (by simp)
  · intro j hj
    show enqList (s.log ++ [Ev.spawned s.live.length spec.name]) j = []
      ∧ startList (s.log ++ [Ev.spawned s.live.length spec.name]) j = []
    rw [show (spawnBase s spec cap).live = s.live ++ [freshLive spec cap] from rfl,
      List.length_append] at hj
    rw [(hproj j).1, (hproj j).2]
    exact ⟨(hB j (by simpa using Nat.le_of_succ_le hj)).1,
      (hB j (by simpa using Nat.le_of_succ_le hj)).2⟩

theorem get_spawnBase_fresh (s : SysState) (spec : ActorSpec) (cap : CapabilityToken) :
    (spawnBase s spec cap).live.get? s.live.length = some (freshLive spec cap) :=
  List.get?_concat_length s.live (freshLive spec cap)

theorem accounted_spawnInitOk {s : SysState} (spec : ActorSpec) (cap : CapabilityToken)
    (hacc : Accounted s) : Accounted (spawnInitOk s spec cap) :=
  accounted_frame (get_spawnBase_fresh s spec cap) rfl rfl
    (fun j => by simp [spawnInitOk, enqList_append, enqList, List.filterMap, enqOf])
    (fun j => by simp [spawnInitOk, startList_append, startList, List.filterMap, startOf])
    (accounted_spawnBase spec cap hacc)

theorem accounted_spawnInitFail {s : SysState} (spec : ActorSpec) (cap : CapabilityToken)
    (hacc : Accounted s) : Accounted (spawnInitFail s spec cap) :=
  accounted_frame (get_spawnBase_fresh s spec cap) rfl rfl
    (fun j => by simp [spawnInitFail, enqList_append, enqList, List.filterMap, enqOf])
    (fun j => by simp [spawnInitFail, startList_append, startList, List.filterMap, startOf])
    (accounted_spawnBase spec cap hacc)

theorem accounted_deliver {s : SysState} {i : Nat} {la la1 : LiveActor} {m : Message}
    {rest : List Message} (hget : s.live.get? i = some la) (hq : la.q = m :: rest)
    (hq1 : la1.q = rest)
    (e : Ev) (henqe : ∀ j, enqOf j e = none) (hstarte : ∀ j, startOf j e = none)
    (hacc : Accounted s) :
    Accounted { s with live := s.live.set i la1,
                       log := s.log ++ [Ev.msgStart i m, e] } := by
  obtain ⟨hA, hB⟩ := hacc
  have henq : ∀ j, enqList (s.log ++ [Ev.msgStart i m, e]) j = enqList s.log j := by
    intro j
    have h1 : enqOf j (Ev.msgStart i m) = none := rfl
    simp [enqList_append, enqList, List.filterMap_cons, List.filterMap_nil, h1, henqe j]
  have hstart : ∀ j, startList (s.log ++ [Ev.msgStart i m, e]) j
      = startList s.log j ++ if i = j then [m] else [] := by
    intro j
    by_cases hij : i = j
    · subst hij
      have h1 : startOf i (Ev.msgStart i m) = some m := by simp [startOf]
      simp [startList_append, startList, List.filterMap_cons, List.filterMap_nil, h1,
        hstarte i]
    · have h1 : startOf j (Ev.msgStart i m) = none := by simp [startOf, hij]
      simp [startList_append, startList, List.filterMap_cons, List.filterMap_nil, h1,
        hstarte j, hij]
  constructor
  · intro j lb hj
    by_cases hij : j = i
    · subst hij
      rw [get_set_same _ hget] at hj
      cases hj
      rw [henq j, hstart j, if_pos rfl, hq1]
      have := hA j la hget
      rw [this, hq, List.append_cons]
    · rw [get_set_other _ (fun h => hij h.symm)] at hj
      rw [henq j, hstart j, if_neg (fun h => hij h.symm), List.append_nil]
      exact hA j lb hj
  · intro j hj
    rw [List.length_set] at hj
    have hne : i ≠ j := by
      intro h
      subst h
      have : i < s.live.length := (List.get?_eq_some.mp hget).1
      omega
    rw [henq j, hstart j, if_neg hne, List.append_nil]
    exact hB j hj

theorem accounted_stepLive {s : SysState} {i : Nat} {la : LiveActor}
    (hget : s.live.get? i = some la)
    (hacc : Accounted s) : Accounted (stepLive s i la) := by
  cases hst : la.status with
  | idle =>
    simp only [stepLive, hst]
    exact hacc
  | draining =>
    cases hq : la.q with
    | nil =>
      simp only [stepLive, hst, hq]
      exact accounted_frame hget rfl hq.symm (fun j => rfl) (fun j => rfl) hacc
    | cons m rest =>
      simp only [stepLive, hst, hq]
      split
      · exact accounted_handleCrashStep i true
          (accounted_deliver hget hq (by rfl) (Ev.msgThrow i m) (fun j => rfl) (fun j => rfl) hacc)
      · exact accounted_deliver hget hq (by rfl) (Ev.msgEnd i m) (fun j => rfl) (fun j => rfl) hacc
  | backoff untilT rd =>
    simp only [stepLive, hst]
    split
    · exact hacc
    · split
      · split
        · exact accounted_frame hget rfl rfl
            (fun j => by simp [enqList_append, enqList, List.filterMap, enqOf])
            (fun j => by simp [startList_append, startList, List.filterMap, startOf]) hacc
        · exact accounted_frame hget rfl rfl
            (fun j => by simp [enqList_append, enqList, List.filterMap, enqOf])
            (fun j => by simp [startList_append, startList, List.filterMap, startOf]) hacc
      · exact accounted_frame hget rfl rfl (fun j => rfl) (fun j => rfl) hacc

theorem accounted_stepActor {s : SysState} (i : Nat)
    (hacc : Accounted s) : Accounted (stepActor s i) := by
  unfold stepActor
  cases hget : s.live.get? i with
  | none => exact hacc
  | some la => exact accounted_stepLive hget hacc

theorem accounted_sendLive {s : SysState} {i : Nat} {la : LiveActor} (m : Message)
    (hget : s.live.get? i = some la)
    (hacc : Accounted s) : Accounted (sendLive s i la m) := by
  unfold sendLive
  split
  · exact accounted_logFrame hacc rfl
      (fun j => by simp [enqList_append, enqList, List.filterMap, enqOf])
      (fun j => by simp [startList_append, startList, List.filterMap, startOf])
  · obtain ⟨hA, hB⟩ := hacc
    have henq : ∀ j, enqList (s.log ++ [Ev.enq i m]) j
        = enqList s.log j ++ if i = j then [m] else [] := by
      intro j
      by_cases hij : i = j
      · simp [enqList_append, enqList, List.filterMap, enqOf, hij]
      · simp [enqList_append, enqList, List.filterMap, enqOf, hij]
    have hstart : ∀ j, startList (s.log ++ [Ev.enq i m]) j = startList s.log j := by
      intro j
      simp [startList_append, startList, List.filterMap, startOf]
    constructor
    · intro j lb hj
      by_cases hij : j = i
      · subst hij
        rw [get_set_same _ hget] at hj
        cases hj
        rw [henq j, hstart j, if_pos rfl]
        have := hA j la hget
        rw [this, List.append_assoc]
      · rw [get_set_other _ (fun h => hij h.symm)] at hj
        rw [henq j, hstart j, if_neg (fun h => hij h.symm), List.append_nil]
        exact hA j lb hj
    · intro j hj
      rw [List.length_set] at hj
      have hne : i ≠ j := by
        intro h
        subst h
        have : i < s.live.length := (List.get?_eq_some.mp hget).1
        omega
      rw [henq j, hstart j, if_neg hne, List.append_nil]
      exact hB j hj

theorem accounted_sendH {s : SysState} (i : Nat) (m : Message)
    (hacc : Accounted s) : Accounted (sendH s i m) := by
  unfold sendH
  cases hget : s.live.get? i with
  | none => exact hacc
  | some la => exact accounted_sendLive m hget hacc

theorem accounted_spawnFresh {s : SysState} (spec : ActorSpec) (cap : CapabilityToken)
    (hacc : Accounted s) : Accounted (spawnFresh s spec cap) := by
  unfold spawnFresh
  split
  · split
    · exact accounted_handleCrashStep _ false (accounted_spawnInitFail spec cap hacc)
    · exact accounted_spawnInitOk spec cap hacc
  · exact accounted_spawnBase spec cap hacc

theorem accounted_execCmd {s : SysState} (c : Cmd)
    (hacc : Accounted s) : Accounted (execCmd s c) := by
  cases c with
  | spawn spec cap =>
    show Accounted (spawnSys s spec cap)
    unfold spawnSys
    cases hlook : lookupReg s.registry spec.name with
    | some j =>
      exact accounted_logFrame hacc rfl
        (fun k => by simp [enqList_append, enqList, List.filterMap, enqOf])
        (fun k => by simp [startList_append, startList, List.filterMap, startOf])
    | none => exact accounted_spawnFresh spec cap hacc
  | send i m => exact accounted_sendH i m hacc
  | stop name =>
    exact accounted_logFrame hacc rfl
      (fun k => by simp [execCmd, stopSys, enqList_append, enqList, List.filterMap, enqOf])
      (fun k => by simp [execCmd, stopSys, startList_append, startList, List.filterMap, startOf])
  | tick dt => exact accounted_logFrame hacc rfl (fun k => rfl) (fun k => rfl)
  | step i => exact accounted_stepActor i hacc

theorem accounted_execCmds {s : SysState} (cmds : List Cmd)
    (hacc : Accounted s) : Accounted (execCmds s cmds) := by
  induction cmds generalizing s with
  | nil => exact hacc
  | cons c rest ih => exact ih (accounted_execCmd c hacc)

theorem accounted_initSys (p : RestartPolicy) : Accounted (initSys p) := by
  constructor
  · intro i la hget
    simp [initSys] at hget
  · intro i _
    exact ⟨rfl, rfl⟩

theorem accounted_run (p : RestartPolicy) (cmds : List Cmd) : Accounted (run p cmds) :=
  accounted_execCmds cmds (accounted_initSys p)

/-! ## Handler pairing invariant

Each `onMessage` invocation is awaited before the next dequeue, so an
actor's handler activity is a sequence of adjacent
(start, completion-or-throw) pairs. -/

/-- The canonical well-paired handler trace of actor `i`: one
(message, completed-normally?) pair per invocation. -/
def mkPairs (i : Nat) : List (Message × Bool) → List Ev
  | [] => []
  | (m, ok) :: ps =>
    Ev.msgStart i m :: (if ok then Ev.msgEnd i m else Ev.msgThrow i m) :: mkPairs i ps

theorem pairedSeq_mkPairs (i : Nat) (ps : List (Message × Bool)) :
    pairedSeq (mkPairs i ps) = true := by
  induction ps with
  | nil => rfl
  | cons p ps ih =>
    obtain ⟨m, ok⟩ := p
    cases ok with
    | true => simp [mkPairs, pairedSeq, ih]
    | false => simp [mkPairs, pairedSeq, ih]

theorem mkPairs_append (i : Nat) (ps : List (Message × Bool)) (m : Message) (ok : Bool) :
    mkPairs i (ps ++ [(m, ok)])
      = mkPairs i ps ++ [Ev.msgStart i m, if ok then Ev.msgEnd i m else Ev.msgThrow i m] := by
  induction ps with
  | nil => rfl
  | cons p ps ih =>
    obtain ⟨m2, ok2⟩ := p
    simp [mkPairs, ih]

/-- A block of appended log events is pair-shaped when, for every
actor, its handler projection is empty or a single complete
(start, finish) pair. -/
def PairShaped (evs : List Ev) : Prop :=
  ∀ j, handlerEvs evs j = []
    ∨ ∃ (m : Message) (ok : Bool), handlerEvs evs j
        = [Ev.msgStart j m, if ok then Ev.msgEnd j m else Ev.msgThrow j m]

/-- Invariant: every actor's handler activity so far is well paired. -/
def Paired (s : SysState) : Prop :=
  ∀ i, ∃ ps, handlerEvs s.log i = mkPairs i ps

theorem paired_extend {s s2 : SysState} {evs : List Ev}
    (hlog : s2.log = s.log ++ evs) (hshape : PairShaped evs)
    (hp : Paired s) : Paired s2 := by
  intro i
  obtain ⟨ps, hps⟩ := hp i
  rw [hlog, handlerEvs_append, hps]
  rcases hshape i with h | ⟨m, ok, h⟩
  · exact ⟨ps, by rw [h, List.append_nil]⟩
  · exact ⟨ps ++ [(m, ok)], by rw [h, mkPairs_append]⟩

theorem handleCrashUpd_shape (s : SysState) (i : Nat) (la : LiveActor) (rd : Bool) :
    ∃ evs, (handleCrashUpd s i la rd).log = s.log ++ evs
      ∧ (∀ j, handlerEvs evs j = []) := by
  cases hd : crashDisposition la with
  | resume =>
    simp only [handleCrashUpd, hd]
    exact ⟨[Ev.crash i Disposition.resume], rfl, fun j => rfl⟩
  | stop =>
    simp only [handleCrashUpd, hd]
    exact ⟨[Ev.crash i Disposition.stop, Ev.stopped la.spec.name], rfl, fun j => rfl⟩
  | restart =>
    simp only [handleCrashUpd, hd]
    split
    · exact ⟨[Ev.crash i Disposition.restart, Ev.stopped la.spec.name], rfl, fun j => rfl⟩
    · exact ⟨[Ev.crash i Disposition.restart], rfl, fun j => rfl⟩

theorem handleCrashStep_shape (s : SysState) (i : Nat) (rd : Bool) :
    ∃ evs, (handleCrashStep s i rd).log = s.log ++ evs
      ∧ (∀ j, handlerEvs evs j = []) := by
  unfold handleCrashStep
  cases hget : s.live.get? i with
  | none => exact ⟨[], by simp, fun j => rfl⟩
  | some la => exact handleCrashUpd_shape s i la rd

theorem pairShaped_free {evs : List Ev} (h : ∀ j, handlerEvs evs j = []) :
    PairShaped evs :=
  fun j => Or.inl (h j)

theorem pairShaped_deliver (i : Nat) (m : Message) (ok : Bool) :
    PairShaped [Ev.msgStart i m, if ok then Ev.msgEnd i m else Ev.msgThrow i m] := by
  intro j
  by_cases hij : j = i
  · subst hij
    right
    exact ⟨m, ok, by cases ok <;> simp [handlerEvs, List.filter, handlerOf]⟩
  · left
    have hne : (i == j) = false := beq_eq_false_iff_ne.mpr (fun h => hij h.symm)
    cases ok <;> simp [handlerEvs, List.filter, handlerOf, hne]

theorem pairShaped_append_free {evs evs2 : List Ev}
    (h : PairShaped evs) (hfree : ∀ j, handlerEvs evs2 j = []) :
    PairShaped (evs ++ evs2) := by
  intro j
  rw [handlerEvs_append, hfree, List.append_nil]
  exact h j

theorem handleCrashStep_shape_after (baseLog pre : List Ev) {s1 : SysState}
    (hlog : s1.log = baseLog ++ pre) (hpre : PairShaped pre) (i : Nat) (rd : Bool) :
    ∃ evs, (handleCrashStep s1 i rd).log = baseLog ++ evs ∧ PairShaped evs := by
  obtain ⟨evs2, hlog2, hfree2⟩ := handleCrashStep_shape s1 i rd
  exact ⟨pre ++ evs2, by rw [hlog2, hlog, List.append_assoc],
    pairShaped_append_free hpre hfree2⟩

theorem stepLive_shape (s : SysState) (i : Nat) (la : LiveActor) :
    ∃ evs, (stepLive s i la).log = s.log ++ evs ∧ PairShaped evs := by
  cases hst : la.status with
  | idle =>
    simp only [stepLive, hst]
    exact ⟨[], by simp, pairShaped_free (fun j => rfl)⟩
  | draining =>
    cases hq : la.q with
    | nil =>
      simp only [stepLive, hst, hq]
      exact ⟨[], by simp, pairShaped_free (fun j => rfl)⟩
    | cons m rest =>
      simp only [stepLive, hst, hq]
      split
      · exact handleCrashStep_shape_after s.log [Ev.msgStart i m, Ev.msgThrow i m] rfl
          (by simpa using pairShaped_deliver i m false) i true
      · exact ⟨[Ev.msgStart i m, Ev.msgEnd i m], rfl,
          by simpa using pairShaped_deliver i m true⟩
  | backoff untilT rd =>
    simp only [stepLive, hst]
    split
    · exact ⟨[], by simp, pairShaped_free (fun j => rfl)⟩
    · split
      · split
        · exact ⟨[Ev.initStart i, Ev.initThrew i, Ev.escape i], rfl,
            pairShaped_free (fun j => rfl)⟩
        · exact ⟨[Ev.initStart i, Ev.initOk i], rfl, pairShaped_free (fun j => rfl)⟩
      · exact ⟨[], by simp, pairShaped_free (fun j => rfl)⟩

theorem execCmd_shape (s : SysState) (c : Cmd) :
    ∃ evs, (execCmd s c).log = s.log ++ evs ∧ PairShaped evs := by
  cases c with
  | spawn spec cap =>
    show ∃ evs, (spawnSys s spec cap).log = s.log ++ evs ∧ PairShaped evs
    unfold spawnSys
    cases hlook : lookupReg s.registry spec.name with
    | some j => exact ⟨[Ev.spawnRejected spec.name], rfl, pairShaped_free (fun k => rfl)⟩
    | none =>
      show ∃ evs, (spawnFresh s spec cap).log = s.log ++ evs ∧ PairShaped evs
      unfold spawnFresh
      split
      · split
        · exact handleCrashStep_shape_after s.log
            [Ev.spawned s.live.length spec.name, Ev.initStart s.live.length,
              Ev.initThrew s.live.length]
            (by simp [spawnInitFail, spawnBase]) (pairShaped_free (fun k => rfl))
            s.live.length false
        · exact ⟨[Ev.spawned s.live.length spec.name, Ev.initStart s.live.length,
              Ev.initOk s.live.length],
            by simp [spawnInitOk, spawnBase, List.append_assoc],
            pairShaped_free (fun k => rfl)⟩
      · exact ⟨[Ev.spawned s.live.length spec.name], rfl, pairShaped_free (fun k => rfl)⟩
  | send i m =>
    show ∃ evs, (sendH s i m).log = s.log ++ evs ∧ PairShaped evs
    unfold sendH
    cases hget : s.live.get? i with
    | none => exact ⟨[], by simp, pairShaped_free (fun k => rfl)⟩
    | some la =>
      show ∃ evs, (sendLive s i la m).log = s.log ++ evs ∧ PairShaped evs
      unfold sendLive
      split
      · exact ⟨[Ev.overflow i m], rfl, pairShaped_free (fun k => rfl)⟩
      · exact ⟨[Ev.enq i m], rfl, pairShaped_free (fun k => rfl)⟩
  | stop name => exact ⟨[Ev.stopped name], rfl, pairShaped_free (fun k => rfl)⟩
  | tick dt => exact ⟨[], by simp [execCmd], pairShaped_free (fun k => rfl)⟩
  | step i =>
    show ∃ evs, (stepActor s i).log = s.log ++ evs ∧ PairShaped evs
    unfold stepActor
    cases hget : s.live.get? i with
    | none => exact ⟨[], by simp, pairShaped_free (fun k => rfl)⟩
    | some la => exact stepLive_shape s i la

theorem paired_execCmd {s : SysState} (c : Cmd) (hp : Paired s) :
    Paired (execCmd s c) := by
  obtain ⟨evs, hlog, hshape⟩ := execCmd_shape s c
  exact paired_extend hlog hshape hp

theorem paired_execCmds {s : SysState} (cmds : List Cmd) (hp : Paired s) :
    Paired (execCmds s cmds) := by
  induction cmds generalizing s with
  | nil => exact hp
  | cons c rest ih => exact ih (paired_execCmd c hp)

theorem paired_run (p : RestartPolicy) (cmds : List Cmd) : Paired (run p cmds) :=
  paired_execCmds cmds (fun _ => ⟨[], rfl⟩)

/-! ## Crash-window, registry and frame lemmas -/

theorem recordCrash_within (crashes : List Nat) (now windowMs : Nat) :
    ∀ ts ∈ recordCrash crashes now windowMs, now - ts ≤ windowMs := by
  intro ts hts
  unfold recordCrash at hts
  rcases List.mem_append.mp hts with h | h
  · simpa using (List.mem_filter.mp h).2
  · rcases List.mem_singleton.mp h with rfl
    simp

theorem lookupReg_filter_none {reg : List (String × Nat)} {name : String}
    (p : String × Nat → Bool) (h : lookupReg reg name = none) :
    lookupReg (reg.filter p) name = none := by
  induction reg with
  | nil => rfl
  | cons hd tl ih =>
    unfold lookupReg at h
    by_cases hname : hd.1 = name
    · rw [if_pos hname] at h
      exact absurd h (by simp)
    · rw [if_neg hname] at h
      by_cases hp : p hd
      · simpa [List.filter_cons, hp, lookupReg, hname] using ih h
      · simpa [List.filter_cons, hp] using ih h

theorem handleCrashUpd_reg_none {s : SysState} {i : Nat} {la : LiveActor} {rd : Bool}
    {name : String} (h : lookupReg s.registry name = none) :
    lookupReg (handleCrashUpd s i la rd).registry name = none := by
  cases hd : crashDisposition la with
  | resume => simpa [handleCrashUpd, hd] using h
  | stop =>
    simp only [handleCrashUpd, hd]
    exact lookupReg_filter_none _ h
  | restart =>
    simp only [handleCrashUpd, hd]
    split
    · exact lookupReg_filter_none _ h
    · exact h

theorem handleCrashStep_reg_none {s : SysState} {i : Nat} {rd : Bool} {name : String}
    (h : lookupReg s.registry name = none) :
    lookupReg (handleCrashStep s i rd).registry name = none := by
  unfold handleCrashStep
  cases hget : s.live.get? i with
  | none => exact h
  | some la => exact handleCrashUpd_reg_none h

theorem startOf_none_of_not_handler {i : Nat} {e : Ev}
    (h : handlerOf i e = false) : startOf i e = none := by
  cases e <;> simp_all [handlerOf, startOf]

theorem startList_nil_of_handler_nil {evs : List Ev} {i : Nat}
    (h : handlerEvs evs i = []) : startList evs i = [] := by
  have hall := List.filter_eq_nil.mp h
  induction evs with
  | nil => rfl
  | cons e tl ih =>
    have he : handlerOf i e = false := by
      have := hall e (List.mem_cons_self e tl)
      exact Bool.eq_false_iff.mpr this
    have htl : handlerEvs tl i = [] := by
      unfold handlerEvs at h ⊢
      rwa [List.filter_cons, he] at h
    have := ih htl (fun a ha => hall a (List.mem_cons_of_mem e ha))
    unfold startList
    rw [List.filterMap_cons, startOf_none_of_not_handler he]
    exact this

theorem handleCrashStep_startList (s : SysState) (i : Nat) (rd : Bool) (i2 : Nat) :
    startList (handleCrashStep s i rd).log i2 = startList s.log i2 := by
  obtain ⟨evs, hlog, hfree⟩ := handleCrashStep_shape s i rd
  rw [hlog, startList_append, startList_nil_of_handler_nil (hfree i2), List.append_nil]

theorem handleCrashUpd_get_other {s : SysState} {i : Nat} (la : LiveActor) (rd : Bool)
    {i2 : Nat} (hij : i ≠ i2) :
    (handleCrashUpd s i la rd).live.get? i2 = s.live.get? i2 := by
  cases hd : crashDisposition la with
  | resume => simp only [handleCrashUpd, hd]; exact get_set_other _ hij
  | stop => simp only [handleCrashUpd, hd]; exact get_set_other _ hij
  | restart =>
    simp only [handleCrashUpd, hd]
    split
    · exact get_set_other _ hij
    · exact get_set_other _ hij

theorem handleCrashStep_get_other {s : SysState} {i : Nat} (rd : Bool)
    {i2 : Nat} (hij : i ≠ i2) :
    (handleCrashStep s i rd).live.get? i2 = s.live.get? i2 := by
  unfold handleCrashStep
  cases hget : s.live.get? i with
  | none => rfl
  | some la => exact handleCrashUpd_get_other la rd hij

theorem stepLive_get_other {s : SysState} {i : Nat} (la : LiveActor)
    {i2 : Nat} (hij : i ≠ i2) :
    (stepLive s i la).live.get? i2 = s.live.get? i2 := by
  cases hst : la.status with
  | idle => simp only [stepLive, hst]
  | draining =>
    cases hq : la.q with
    | nil =>
      simp only [stepLive, hst, hq]
      exact get_set_other _ hij
    | cons m rest =>
      simp only [stepLive, hst, hq]
      split
      · rw [handleCrashStep_get_other true hij]
        exact get_set_other _ hij
      · exact get_set_other _ hij
  | backoff untilT rd =>
    simp only [stepLive, hst]
    split
    · rfl
    · split
      · split
        · exact get_set_other _ hij
        · exact get_set_other _ hij
      · exact get_set_other _ hij

theorem startOf_msgStart_other {i2 i : Nat} {m : Message} (hij : i ≠ i2) :
    startOf i2 (Ev.msgStart i m) = none := by
  simp [startOf, hij]

theorem stepLive_startList_other {s : SysState} {i : Nat} (la : LiveActor)
    {i2 : Nat} (hij : i ≠ i2) :
    startList (stepLive s i la).log i2 = startList s.log i2 := by
  cases hst : la.status with
  | idle => simp only [stepLive, hst]
  | draining =>
    cases hq : la.q with
    | nil => simp only [stepLive, hst, hq]
    | cons m rest =>
      simp only [stepLive, hst, hq]
      split
      · rw [handleCrashStep_startList]
        show startList (s.log ++ [Ev.msgStart i m, Ev.msgThrow i m]) i2 = startList s.log i2
        simp [startList_append, startList, List.filterMap_cons, List.filterMap_nil,
          startOf, hij]
      · show startList (s.log ++ [Ev.msgStart i m, Ev.msgEnd i m]) i2 = startList s.log i2
        simp [startList_append, startList, List.filterMap_cons, List.filterMap_nil,
          startOf, hij]
  | backoff untilT rd =>
    simp only [stepLive, hst]
    split
    · rfl
    · split
      · split
        · simp [startList_append, startList, List.filterMap, startOf]
        · simp [startList_append, startList, List.filterMap, startOf]
      · rfl

theorem stepLive_reg_none {s : SysState} {i : Nat} (la : LiveActor) {name : String}
    (h : lookupReg s.registry name = none) :
    lookupReg (stepLive s i la).registry name = none := by
  cases hst : la.status with
  | idle => simpa [stepLive, hst] using h
  | draining =>
    cases hq : la.q with
    | nil => simpa [stepLive, hst, hq] using h
    | cons m rest =>
      simp only [stepLive, hst, hq]
      split
      · exact handleCrashStep_reg_none h
      · exact h
  | backoff untilT rd =>
    simp only [stepLive, hst]
    split
    · exact h
    · split
      · split
        · exact h
        · exact h
      · exact h

theorem stepActor_idle {s : SysState} {i : Nat} {la : LiveActor}
    (hget : s.live.get? i = some la) (hidle : la.status = Status.idle) :
    stepActor s i = s := by
  simp only [stepActor, hget, stepLive, hidle]

/-! ## Dormancy: an idle actor is never invoked again by steps/ticks -/

/-- Commands that inject no new work: scheduler steps and clock ticks
(no spawns, sends or stops). -/
def passiveCmd : Cmd → Bool
  | Cmd.step _ => true
  | Cmd.tick _ => true
  | _ => false

theorem dormant_execCmds {i : Nat} {name : String} (cont : List Cmd) :
    ∀ (s : SysState) (la : LiveActor), (∀ c ∈ cont, passiveCmd c = true) →
    s.live.get? i = some la → la.status = Status.idle →
    lookupReg s.registry name = none →
    (execCmds s cont).live.get? i = some la
      ∧ startList (execCmds s cont).log i = startList s.log i
      ∧ lookupReg (execCmds s cont).registry name = none := by
  induction cont with
  | nil => exact fun s la _ hget _ hreg => ⟨hget, rfl, hreg⟩
  | cons c rest ih =>
    intro s la hpassive hget hidle hreg
    have hc := hpassive c (List.mem_cons_self c rest)
    have hrest : ∀ c2 ∈ rest, passiveCmd c2 = true :=
      fun c2 hc2 => hpassive c2 (List.mem_cons_of_mem c hc2)
    cases c with
    | spawn spec cap => exact absurd hc (by simp [passiveCmd])
    | send j m => exact absurd hc (by simp [passiveCmd])
    | stop n => exact absurd hc (by simp [passiveCmd])
    | tick dt => exact ih _ la hrest hget hidle hreg
    | step j =>
      by_cases hij : j = i
      · subst hij
        have heq : execCmd s (Cmd.step j) = s := stepActor_idle hget hidle
        show (execCmds (execCmd s (Cmd.step j)) rest).live.get? j = some la
          ∧ startList (execCmds (execCmd s (Cmd.step j)) rest).log j = startList s.log j
          ∧ lookupReg (execCmds (execCmd s (Cmd.step j)) rest).registry name = none
        rw [heq]
        exact ih _ la hrest hget hidle hreg
      · show (execCmds (stepActor s j) rest).live.get? i = some la
          ∧ startList (execCmds (stepActor s j) rest).log i = startList s.log i
          ∧ lookupReg (execCmds (stepActor s j) rest).registry name = none
        have hji : j ≠ i := hij
        have hget2 : (stepActor s j).live.get? i = some la := by
          unfold stepActor
          cases hget2 : s.live.get? j with
          | none => exact hget
          | some la2 => rw [stepLive_get_other la2 hji]; exact hget
        have hlog2 : startList (stepActor s j).log i = startList s.log i := by
          unfold stepActor
          cases hget2 : s.live.get? j with
          | none => rfl
          | some la2 => exact stepLive_startList_other la2 hji
        have hreg2 : lookupReg (stepActor s j).registry name = none := by
          unfold stepActor
          cases hget2 : s.live.get? j with
          | none => exact hreg
          | some la2 => exact stepLive_reg_none la2 hreg
        obtain ⟨h1, h2, h3⟩ := ih _ la hrest hget2 hidle hreg2
        exact ⟨h1, by rw [h2, hlog2], h3⟩

/-! ## Benign drain: a non-crashing actor delivers its whole queue -/

theorem stepActor_deliver_ok {s : SysState} {i : Nat} {la : LiveActor} {m : Message}
    {rest : List Message} (hget : s.live.get? i = some la)
    (hst : la.status = Status.draining) (hq : la.q = m :: rest)
    (hok : la.spec.msgThrowsOn la.msgIdx m = false) :
    stepActor s i = { s with live := s.live.set i { la with q := rest, msgIdx := la.msgIdx + 1 },
                             log := s.log ++ [Ev.msgStart i m, Ev.msgEnd i m] } := by
  simp only [stepActor, hget, stepLive, hst, hq, hok, Bool.false_eq_true, if_false]

theorem drain_benign (ms : List Message) :
    ∀ (s : SysState) (i : Nat) (la : LiveActor), s.live.get? i = some la →
    la.status = Status.draining → la.q = ms →
    (∀ k m, la.spec.msgThrowsOn k m = false) →
    ∃ la2, (execCmds s (List.replicate ms.length (Cmd.step i))).live.get? i = some la2
      ∧ la2.q = [] ∧ la2.status = Status.draining ∧ la2.spec = la.spec
      ∧ startList (execCmds s (List.replicate ms.length (Cmd.step i))).log i
          = startList s.log i ++ ms := by
  induction ms with
  | nil =>
    intro s i la hget hst hq hbenign
    exact ⟨la, hget, hq, hst, rfl, by simp [execCmds]⟩
  | cons m rest ih =>
    intro s i la hget hst hq hbenign
    rw [List.length_cons, List.replicate_succ]
    have hstep : execCmd s (Cmd.step i)
        = { s with live := s.live.set i { la with q := rest, msgIdx := la.msgIdx + 1 },
                   log := s.log ++ [Ev.msgStart i m, Ev.msgEnd i m] } :=
      stepActor_deliver_ok hget hst hq (hbenign la.msgIdx m)
    have hget2 : (execCmd s (Cmd.step i)).live.get? i
        = some { la with q := rest, msgIdx := la.msgIdx + 1 } := by
      rw [hstep]
      exact get_set_same _ hget
    have hlog2 : startList (execCmd s (Cmd.step i)).log i = startList s.log i ++ [m] := by
      rw [hstep]
      show startList (s.log ++ [Ev.msgStart i m, Ev.msgEnd i m]) i = _
      simp [startList_append, startList, List.filterMap_cons, List.filterMap_nil, startOf]
    obtain ⟨la2, h1, h2, h3, h4, h5⟩ := ih (execCmd s (Cmd.step i)) i _ hget2 hst rfl hbenign
    refine ⟨la2, h1, h2, h3, h4, ?_⟩
    show startList (execCmds (execCmd s (Cmd.step i))
      (List.replicate rest.length (Cmd.step i))).log i = _
    rw [h5, hlog2, List.append_assoc]
    rfl

/-! ## Claim theorems -/

theorem hasEffect_iff_mem (cap : CapabilityToken) (e : Effect) :
    hasEffect cap e = true ↔ e ∈ cap.effects := by
  simp [hasEffect]

theorem facadeGuard {σ : Type} (cap : CapabilityToken) (e : Effect) (v : σ)
    (r : FacadeResult σ)
    (hr : r = match assertEffect cap e with
      | Except.error err => ⟨Except.error err, 0⟩
      | Except.ok _ => ⟨Except.ok v, 1⟩) :
    ((r.result = Except.error ⟨e, cap.module⟩ ∧ r.lowCalls = 0) ↔ e ∉ cap.effects)
    ∧ (r.lowCalls = 1 ↔ e ∈ cap.effects) := by
  subst hr
  by_cases hx : hasEffect cap e
  · have hok : assertEffect cap e = Except.ok () := by
      unfold assertEffect
      rw [if_pos hx]
    rw [hok]
    have hin : e ∈ cap.effects := (hasEffect_iff_mem cap e).mp hx
    constructor
    · show ((Except.ok v : Except CapError σ) = Except.error ⟨e, cap.module⟩
        ∧ (1 : Nat) = 0) ↔ e ∉ cap.effects
      simp [hin]
    · show (1 : Nat) = 1 ↔ e ∈ cap.effects
      simp [hin]
  · have herr : assertEffect cap e = Except.error ⟨e, cap.module⟩ := by
      unfold assertEffect
      rw [if_neg hx]
    rw [herr]
    have hout : e ∉ cap.effects := fun hmem => hx ((hasEffect_iff_mem cap e).mpr hmem)
    constructor
    · show ((Except.error ⟨e, cap.module⟩ : Except CapError σ) = Except.error ⟨e, cap.module⟩
        ∧ (0 : Nat) = 0) ↔ e ∉ cap.effects
      simp [hout]
    · show (0 : Nat) = 1 ↔ e ∈ cap.effects
      simp [hout]

/-- C1: for every capability token and every effect, the facade method
for that effect fails with a `CapabilityViolation` naming the missing
effect and the token's module, with the injected low-level
implementation never invoked, exactly when the effect is absent from
the token's effects; and the low-level implementation is invoked
(exactly once) exactly when the effect is granted. -/
theorem claim_C1_facade_capability_gate {σ : Type} (cap : CapabilityToken)
    (low : LowImpls σ) (a : FacadeArgs) (e : Effect) :
    (((callFacadeFor (bindCaps cap low) a e).result = Except.error ⟨e, cap.module⟩
        ∧ (callFacadeFor (bindCaps cap low) a e).lowCalls = 0) ↔ e ∉ cap.effects)
    ∧ ((callFacadeFor (bindCaps cap low) a e).lowCalls = 1 ↔ e ∈ cap.effects) := by
  cases e with
  | Db => exact facadeGuard cap Effect.Db (low.dbQuery a.sql a.params) _ rfl
  | Net => exact facadeGuard cap Effect.Net (low.netGet a.url) _ rfl
  | Now => exact facadeGuard cap Effect.Now (low.nowNow ()) _ rfl
  | Kms => exact facadeGuard cap Effect.Kms (low.kmsDecrypt a.ciphertext) _ rfl
  | Serial => exact facadeGuard cap Effect.Serial (low.serialReadLine ()) _ rfl

/-- C10: the `now()` accessor `spawn` places on the `ActorContext`
returns the current wall-clock time for every token — including one
without the `Now` (clock) effect — and never raises a
`CapabilityViolation`, whereas the facade's clock method
(`caps.now.now`) enforces the capability check. -/
theorem claim_C10_ctx_now_bypasses_cap_check {σ : Type} (cap : CapabilityToken)
    (low : LowImpls σ) (t : Nat) :
    (mkCtx cap low).now t = Except.ok t
    ∧ ((mkCtx cap low).caps.nowNow ()).result
        = (if hasEffect cap Effect.Now then Except.ok (low.nowNow ())
           else Except.error ⟨Effect.Now, cap.module⟩) := by
  constructor
  · rfl
  · by_cases hx : hasEffect cap Effect.Now
    · have hok : assertEffect cap Effect.Now = Except.ok () := by
        unfold assertEffect
        rw [if_pos hx]
      show ((match assertEffect cap Effect.Now with
        | Except.error err => (⟨Except.error err, 0⟩ : FacadeResult σ)
        | Except.ok _ => ⟨Except.ok (low.nowNow ()), 1⟩).result) = _
      rw [hok, if_pos hx]
    · have herr : assertEffect cap Effect.Now = Except.error ⟨Effect.Now, cap.module⟩ := by
        unfold assertEffect
        rw [if_neg hx]
      show ((match assertEffect cap Effect.Now with
        | Except.error err => (⟨Except.error err, 0⟩ : FacadeResult σ)
        | Except.ok _ => ⟨Except.ok (low.nowNow ()), 1⟩).result) = _
      rw [herr, if_neg hx]

/-! ### Concrete scenario actors (adversarial/faulty module behaviours) -/

/-- A message carrying a sequence number. -/
def msgN (k : Nat) : Message := ⟨"m", k⟩

/-- An actor whose `onMessage` always throws; no `init`, no `onCrash`. -/
def alwaysThrowSpec : ActorSpec := ⟨"A", false, fun _ => false, fun _ _ => true, none⟩

def tokA : CapabilityToken := ⟨"A", [], 0, false⟩

/-- A benign actor: handlers never throw. -/
def benignSpecB : ActorSpec := ⟨"B", false, fun _ => false, fun _ _ => false, none⟩

def tokB : CapabilityToken := ⟨"B", [], 0, false⟩

/-- An actor with an `init` that never throws, whose `onMessage` throws
only on its first invocation; no `onCrash`. -/
def crashOnceSpecB : ActorSpec := ⟨"B", true, fun _ => false, fun k _ => k == 0, none⟩

/-- An always-throwing actor whose `onCrash` answers restart on the
first crash and resume afterwards. -/
def resumeAfterSpecC : ActorSpec :=
  ⟨"C", false, fun _ => false, fun _ _ => true,
   some (fun k => if k = 0 then Disposition.restart else Disposition.resume)⟩

def tokC : CapabilityToken := ⟨"C", [], 0, false⟩

/-- An actor whose `init` always throws. -/
def badInitSpecI : ActorSpec := ⟨"I", true, fun _ => true, fun _ _ => false, none⟩

def tokI : CapabilityToken := ⟨"I", [], 0, false⟩

/-! ### C2 -/

/-- Five messages queued to an always-throwing actor under the default
policy, with the scheduler running each crash/backoff to completion. -/
def c2cexCmds : List Cmd :=
  [Cmd.spawn alwaysThrowSpec tokA,
   Cmd.send 0 (msgN 1), Cmd.send 0 (msgN 2), Cmd.send 0 (msgN 3), Cmd.send 0 (msgN 4),
   Cmd.send 0 (msgN 5),
   Cmd.step 0, Cmd.tick 250, Cmd.step 0, Cmd.step 0, Cmd.tick 250, Cmd.step 0,
   Cmd.step 0, Cmd.tick 250, Cmd.step 0, Cmd.step 0, Cmd.step 0]

/-- C2 counterexample: with a 5th message queued, the always-throwing
actor is deregistered after its 4th crash (`stopped` appears in the
log, the registry no longer has "A") — yet `onMessage` IS invoked a 5th
time after that point, because `stop` only deletes the registry entry
while the mailbox drain keeps running.  This refutes "onMessage is
never invoked for that actor again after that point". -/
theorem claim_C2_counterexample :
    countStarts (run DEFAULT_POLICY c2cexCmds).log 0 = 5
    ∧ countStarts (afterFirstStop "A" (run DEFAULT_POLICY c2cexCmds).log) 0 = 1
    ∧ lookupReg (run DEFAULT_POLICY c2cexCmds).registry "A" = none :=
  ⟨rfl, rfl, rfl⟩

/-- System-state builder for the single always-throwing actor "A":
crash history, queue, status, message/crash counters, clock, registry
and log. -/
def c2st (crashes : List Nat) (q : List Message) (st : Status) (mi ci tm : Nat)
    (reg : List (String × Nat)) (log : List Ev) : SysState :=
  ⟨[⟨alwaysThrowSpec, tokA, crashes, q, st, mi, ci, 0⟩], reg, tm, DEFAULT_POLICY, log⟩

/-- Exactly four messages queued to the always-throwing actor, the
schedule running all four crashes (at times 0, 250, 500, 750, all
within the 60000ms window) and the final drain exit. -/
def c2budgetCmds (a b c d : Message) : List Cmd :=
  [Cmd.spawn alwaysThrowSpec tokA,
   Cmd.send 0 a, Cmd.send 0 b, Cmd.send 0 c, Cmd.send 0 d,
   Cmd.step 0, Cmd.tick 250, Cmd.step 0, Cmd.step 0, Cmd.tick 250, Cmd.step 0,
   Cmd.step 0, Cmd.tick 250, Cmd.step 0, Cmd.step 0, Cmd.step 0]

set_option maxRecDepth 8000 in
/-- C2 as amended: under policy {maxRestarts 3, windowMs 60000,
backoffMs 250}, the always-throwing actor is removed from the registry
after its 4th crash within the window, having had exactly 4 `onMessage`
invocations; and — provided its mailbox is empty at that point and
nothing further is sent through its handle (only scheduler steps and
clock ticks follow) — `onMessage` is never invoked again and the name
stays unregistered. -/
theorem claim_C2_amended (a b c d : Message) (cont : List Cmd)
    (hpassive : ∀ c2 ∈ cont, passiveCmd c2 = true) :
    lookupReg (run DEFAULT_POLICY (c2budgetCmds a b c d)).registry "A" = none
    ∧ countStarts (run DEFAULT_POLICY (c2budgetCmds a b c d)).log 0 = 4
    ∧ countStarts (execCmds (run DEFAULT_POLICY (c2budgetCmds a b c d)) cont).log 0 = 4
    ∧ lookupReg (execCmds (run DEFAULT_POLICY (c2budgetCmds a b c d)) cont).registry "A"
        = none := by
  have h1 : execCmd (initSys DEFAULT_POLICY) (Cmd.spawn alwaysThrowSpec tokA)
      = (c2st [] [] (Status.idle) 0 0 0 [("A", 0)]
      [Ev.spawned 0 "A"]) := rfl
  have h2 : execCmd (c2st [] [] (Status.idle) 0 0 0 [("A", 0)]
      [Ev.spawned 0 "A"]) (Cmd.send 0 a)
      = (c2st [] [a] (Status.draining) 0 0 0 [("A", 0)]
      [Ev.spawned 0 "A",
        Ev.enq 0 a]) := rfl
  have h3 : execCmd (c2st [] [a] (Status.draining) 0 0 0 [("A", 0)]
      [Ev.spawned 0 "A",
        Ev.enq 0 a]) (Cmd.send 0 b)
      = (c2st [] [a, b] (Status.draining) 0 0 0 [("A", 0)]
      [Ev.spawned 0 "A",
        Ev.enq 0 a,
        Ev.enq 0 b]) := rfl
  have h4 : execCmd (c2st [] [a, b] (Status.draining) 0 0 0 [("A", 0)]
      [Ev.spawned 0 "A",
        Ev.enq 0 a,
        Ev.enq 0 b]) (Cmd.send 0 c)
      = (c2st [] [a, b, c] (Status.draining) 0 0 0 [("A", 0)]
      [Ev.spawned 0 "A",
        Ev.enq 0 a,
        Ev.enq 0 b,
        Ev.enq 0 c]) := rfl
  have h5 : execCmd (c2st [] [a, b, c] (Status.draining) 0 0 0 [("A", 0)]
      [Ev.spawned 0 "A",
        Ev.enq 0 a,
        Ev.enq 0 b,
        Ev.enq 0 c]) (Cmd.send 0 d)
      = (c2st [] [a, b, c, d] (Status.draining) 0 0 0 [("A", 0)]
      [Ev.spawned 0 "A",
        Ev.enq 0 a,
        Ev.enq 0 b,
        Ev.enq 0 c,
        Ev.enq 0 d]) := rfl
  have h6 : execCmd (c2st [] [a, b, c, d] (Status.draining) 0 0 0 [("A", 0)]
      [Ev.spawned 0 "A",
        Ev.enq 0 a,
        Ev.enq 0 b,
        Ev.enq 0 c,
        Ev.enq 0 d]) (Cmd.step 0)
      = (c2st [0] [b, c, d] (Status.backoff 250 true) 1 1 0 [("A", 0)]
      [Ev.spawned 0 "A",
        Ev.enq 0 a,
        Ev.enq 0 b,
        Ev.enq 0 c,
        Ev.enq 0 d,
        Ev.msgStart 0 a,
        Ev.msgThrow 0 a,
        Ev.crash 0 Disposition.restart]) := rfl
  have h7 : execCmd (c2st [0] [b, c, d] (Status.backoff 250 true) 1 1 0 [("A", 0)]
      [Ev.spawned 0 "A",
        Ev.enq 0 a,
        Ev.enq 0 b,
        Ev.enq 0 c,
        Ev.enq 0 d,
        Ev.msgStart 0 a,
        Ev.msgThrow 0 a,
        Ev.crash 0 Disposition.restart]) (Cmd.tick 250)
      = (c2st [0] [b, c, d] (Status.backoff 250 true) 1 1 250 [("A", 0)]
      [Ev.spawned 0 "A",
        Ev.enq 0 a,
        Ev.enq 0 b,
        Ev.enq 0 c,
        Ev.enq 0 d,
        Ev.msgStart 0 a,
        Ev.msgThrow 0 a,
        Ev.crash 0 Disposition.restart]) := rfl
  have h8 : execCmd (c2st [0] [b, c, d] (Status.backoff 250 true) 1 1 250 [("A", 0)]
      [Ev.spawned 0 "A",
        Ev.enq 0 a,
        Ev.enq 0 b,
        Ev.enq 0 c,
        Ev.enq 0 d,
        Ev.msgStart 0 a,
        Ev.msgThrow 0 a,
        Ev.crash 0 Disposition.restart]) (Cmd.step 0)
      = (c2st [0] [b, c, d] (Status.draining) 1 1 250 [("A", 0)]
      [Ev.spawned 0 "A",
        Ev.enq 0 a,
        Ev.enq 0 b,
        Ev.enq 0 c,
        Ev.enq 0 d,
        Ev.msgStart 0 a,
        Ev.msgThrow 0 a,
        Ev.crash 0 Disposition.restart]) := rfl
  have h9 : execCmd (c2st [0] [b, c, d] (Status.draining) 1 1 250 [("A", 0)]
      [Ev.spawned 0 "A",
        Ev.enq 0 a,
        Ev.enq 0 b,
        Ev.enq 0 c,
        Ev.enq 0 d,
        Ev.msgStart 0 a,
        Ev.msgThrow 0 a,
        Ev.crash 0 Disposition.restart]) (Cmd.step 0)
      = (c2st [0, 250] [c, d] (Status.backoff 500 true) 2 2 250 [("A", 0)]
      [Ev.spawned 0 "A",
        Ev.enq 0 a,
        Ev.enq 0 b,
        Ev.enq 0 c,
        Ev.enq 0 d,
        Ev.msgStart 0 a,
        Ev.msgThrow 0 a,
        Ev.crash 0 Disposition.restart,
        Ev.msgStart 0 b,
        Ev.msgThrow 0 b,
        Ev.crash 0 Disposition.restart]) := rfl
  have h10 : execCmd (c2st [0, 250] [c, d] (Status.backoff 500 true) 2 2 250 [("A", 0)]
      [Ev.spawned 0 "A",
        Ev.enq 0 a,
        Ev.enq 0 b,
        Ev.enq 0 c,
        Ev.enq 0 d,
        Ev.msgStart 0 a,
        Ev.msgThrow 0 a,
        Ev.crash 0 Disposition.restart,
        Ev.msgStart 0 b,
        Ev.msgThrow 0 b,
        Ev.crash 0 Disposition.restart]) (Cmd.tick 250)
      = (c2st [0, 250] [c, d] (Status.backoff 500 true) 2 2 500 [("A", 0)]
      [Ev.spawned 0 "A",
        Ev.enq 0 a,
        Ev.enq 0 b,
        Ev.enq 0 c,
        Ev.enq 0 d,
        Ev.msgStart 0 a,
        Ev.msgThrow 0 a,
        Ev.crash 0 Disposition.restart,
        Ev.msgStart 0 b,
        Ev.msgThrow 0 b,
        Ev.crash 0 Disposition.restart]) := rfl
  have h11 : execCmd (c2st [0, 250] [c, d] (Status.backoff 500 true) 2 2 500 [("A", 0)]
      [Ev.spawned 0 "A",
        Ev.enq 0 a,
        Ev.enq 0 b,
        Ev.enq 0 c,
        Ev.enq 0 d,
        Ev.msgStart 0 a,
        Ev.msgThrow 0 a,
        Ev.crash 0 Disposition.restart,
        Ev.msgStart 0 b,
        Ev.msgThrow 0 b,
        Ev.crash 0 Disposition.restart]) (Cmd.step 0)
      = (c2st [0, 250] [c, d] (Status.draining) 2 2 500 [("A", 0)]
      [Ev.spawned 0 "A",
        Ev.enq 0 a,
        Ev.enq 0 b,
        Ev.enq 0 c,
        Ev.enq 0 d,
        Ev.msgStart 0 a,
        Ev.msgThrow 0 a,
        Ev.crash 0 Disposition.restart,
        Ev.msgStart 0 b,
        Ev.msgThrow 0 b,
        Ev.crash 0 Disposition.restart]) := rfl
  have h12 : execCmd (c2st [0, 250] [c, d] (Status.draining) 2 2 500 [("A", 0)]
      [Ev.spawned 0 "A",
        Ev.enq 0 a,
        Ev.enq 0 b,
        Ev.enq 0 c,
        Ev.enq 0 d,
        Ev.msgStart 0 a,
        Ev.msgThrow 0 a,
        Ev.crash 0 Disposition.restart,
        Ev.msgStart 0 b,
        Ev.msgThrow 0 b,
        Ev.crash 0 Disposition.restart]) (Cmd.step 0)
      = (c2st [0, 250, 500] [d] (Status.backoff 750 true) 3 3 500 [("A", 0)]
      [Ev.spawned 0 "A",
        Ev.enq 0 a,
        Ev.enq 0 b,
        Ev.enq 0 c,
        Ev.enq 0 d,
        Ev.msgStart 0 a,
        Ev.msgThrow 0 a,
        Ev.crash 0 Disposition.restart,
        Ev.msgStart 0 b,
        Ev.msgThrow 0 b,
        Ev.crash 0 Disposition.restart,
        Ev.msgStart 0 c,
        Ev.msgThrow 0 c,
        Ev.crash 0 Disposition.restart]) := rfl
  have h13 : execCmd (c2st [0, 250, 500] [d] (Status.backoff 750 true) 3 3 500 [("A", 0)]
      [Ev.spawned 0 "A",
        Ev.enq 0 a,
        Ev.enq 0 b,
        Ev.enq 0 c,
        Ev.enq 0 d,
        Ev.msgStart 0 a,
        Ev.msgThrow 0 a,
        Ev.crash 0 Disposition.restart,
        Ev.msgStart 0 b,
        Ev.msgThrow 0 b,
        Ev.crash 0 Disposition.restart,
        Ev.msgStart 0 c,
        Ev.msgThrow 0 c,
        Ev.crash 0 Disposition.restart]) (Cmd.tick 250)
      = (c2st [0, 250, 500] [d] (Status.backoff 750 true) 3 3 750 [("A", 0)]
      [Ev.spawned 0 "A",
        Ev.enq 0 a,
        Ev.enq 0 b,
        Ev.enq 0 c,
        Ev.enq 0 d,
        Ev.msgStart 0 a,
        Ev.msgThrow 0 a,
        Ev.crash 0 Disposition.restart,
        Ev.msgStart 0 b,
        Ev.msgThrow 0 b,
        Ev.crash 0 Disposition.restart,
        Ev.msgStart 0 c,
        Ev.msgThrow 0 c,
        Ev.crash 0 Disposition.restart]) := rfl
  have h14 : execCmd (c2st [0, 250, 500] [d] (Status.backoff 750 true) 3 3 750 [("A", 0)]
      [Ev.spawned 0 "A",
        Ev.enq 0 a,
        Ev.enq 0 b,
        Ev.enq 0 c,
        Ev.enq 0 d,
        Ev.msgStart 0 a,
        Ev.msgThrow 0 a,
        Ev.crash 0 Disposition.restart,
        Ev.msgStart 0 b,
        Ev.msgThrow 0 b,
        Ev.crash 0 Disposition.restart,
        Ev.msgStart 0 c,
        Ev.msgThrow 0 c,
        Ev.crash 0 Disposition.restart]) (Cmd.step 0)
      = (c2st [0, 250, 500] [d] (Status.draining) 3 3 750 [("A", 0)]
      [Ev.spawned 0 "A",
        Ev.enq 0 a,
        Ev.enq 0 b,
        Ev.enq 0 c,
        Ev.enq 0 d,
        Ev.msgStart 0 a,
        Ev.msgThrow 0 a,
        Ev.crash 0 Disposition.restart,
        Ev.msgStart 0 b,
        Ev.msgThrow 0 b,
        Ev.crash 0 Disposition.restart,
        Ev.msgStart 0 c,
        Ev.msgThrow 0 c,
        Ev.crash 0 Disposition.restart]) := rfl
  have h15 : execCmd (c2st [0, 250, 500] [d] (Status.draining) 3 3 750 [("A", 0)]
      [Ev.spawned 0 "A",
        Ev.enq 0 a,
        Ev.enq 0 b,
        Ev.enq 0 c,
        Ev.enq 0 d,
        Ev.msgStart 0 a,
        Ev.msgThrow 0 a,
        Ev.crash 0 Disposition.restart,
        Ev.msgStart 0 b,
        Ev.msgThrow 0 b,
        Ev.crash 0 Disposition.restart,
        Ev.msgStart 0 c,
        Ev.msgThrow 0 c,
        Ev.crash 0 Disposition.restart]) (Cmd.step 0)
      = (c2st [0, 250, 500, 750] [] (Status.draining) 4 4 750 []
      [Ev.spawned 0 "A",
        Ev.enq 0 a,
        Ev.enq 0 b,
        Ev.enq 0 c,
        Ev.enq 0 d,
        Ev.msgStart 0 a,
        Ev.msgThrow 0 a,
        Ev.crash 0 Disposition.restart,
        Ev.msgStart 0 b,
        Ev.msgThrow 0 b,
        Ev.crash 0 Disposition.restart,
        Ev.msgStart 0 c,
        Ev.msgThrow 0 c,
        Ev.crash 0 Disposition.restart,
        Ev.msgStart 0 d,
        Ev.msgThrow 0 d,
        Ev.crash 0 Disposition.restart,
        Ev.stopped "A"]) := rfl
  have h16 : execCmd (c2st [0, 250, 500, 750] [] (Status.draining) 4 4 750 []
      [Ev.spawned 0 "A",
        Ev.enq 0 a,
        Ev.enq 0 b,
        Ev.enq 0 c,
        Ev.enq 0 d,
        Ev.msgStart 0 a,
        Ev.msgThrow 0 a,
        Ev.crash 0 Disposition.restart,
        Ev.msgStart 0 b,
        Ev.msgThrow 0 b,
        Ev.crash 0 Disposition.restart,
        Ev.msgStart 0 c,
        Ev.msgThrow 0 c,
        Ev.crash 0 Disposition.restart,
        Ev.msgStart 0 d,
        Ev.msgThrow 0 d,
        Ev.crash 0 Disposition.restart,
        Ev.stopped "A"]) (Cmd.step 0)
      = (c2st [0, 250, 500, 750] [] (Status.idle) 4 4 750 []
      [Ev.spawned 0 "A",
        Ev.enq 0 a,
        Ev.enq 0 b,
        Ev.enq 0 c,
        Ev.enq 0 d,
        Ev.msgStart 0 a,
        Ev.msgThrow 0 a,
        Ev.crash 0 Disposition.restart,
        Ev.msgStart 0 b,
        Ev.msgThrow 0 b,
        Ev.crash 0 Disposition.restart,
        Ev.msgStart 0 c,
        Ev.msgThrow 0 c,
        Ev.crash 0 Disposition.restart,
        Ev.msgStart 0 d,
        Ev.msgThrow 0 d,
        Ev.crash 0 Disposition.restart,
        Ev.stopped "A"]) := rfl
  have hrun : run DEFAULT_POLICY (c2budgetCmds a b c d) = (c2st [0, 250, 500, 750] [] (Status.idle) 4 4 750 []
      [Ev.spawned 0 "A",
        Ev.enq 0 a,
        Ev.enq 0 b,
        Ev.enq 0 c,
        Ev.enq 0 d,
        Ev.msgStart 0 a,
        Ev.msgThrow 0 a,
        Ev.crash 0 Disposition.restart,
        Ev.msgStart 0 b,
        Ev.msgThrow 0 b,
        Ev.crash 0 Disposition.restart,
        Ev.msgStart 0 c,
        Ev.msgThrow 0 c,
        Ev.crash 0 Disposition.restart,
        Ev.msgStart 0 d,
        Ev.msgThrow 0 d,
        Ev.crash 0 Disposition.restart,
        Ev.stopped "A"]) := by
    show List.foldl execCmd (initSys DEFAULT_POLICY) (c2budgetCmds a b c d) = _
    simp only [c2budgetCmds, List.foldl_cons, List.foldl_nil]
    rw [h1, h2, h3, h4, h5, h6, h7, h8, h9, h10, h11, h12, h13, h14, h15, h16]
  have hget : (run DEFAULT_POLICY (c2budgetCmds a b c d)).live.get? 0
      = some ⟨alwaysThrowSpec, tokA, [0, 250, 500, 750], [], Status.idle, 4, 4, 0⟩ := by
    rw [hrun]
    rfl
  have hreg : lookupReg (run DEFAULT_POLICY (c2budgetCmds a b c d)).registry "A" = none := by
    rw [hrun]
    rfl
  obtain ⟨hd1, hd2, hd3⟩ := dormant_execCmds cont _ _ hpassive hget rfl hreg
  refine ⟨hreg, ?_, ?_, hd3⟩
  · show (startList (run DEFAULT_POLICY (c2budgetCmds a b c d)).log 0).length = 4
    rw [hrun]
    rfl
  · show (startList (execCmds (run DEFAULT_POLICY (c2budgetCmds a b c d)) cont).log 0).length = 4
    rw [hd2]
    show (startList (run DEFAULT_POLICY (c2budgetCmds a b c d)).log 0).length = 4
    rw [hrun]
    rfl

theorem claim_C2_amended_witness :
    countStarts (execCmds (run DEFAULT_POLICY
        (c2budgetCmds (msgN 1) (msgN 2) (msgN 3) (msgN 4))) [Cmd.step 0, Cmd.tick 999]).log 0 = 4
    ∧ lookupReg (execCmds (run DEFAULT_POLICY
        (c2budgetCmds (msgN 1) (msgN 2) (msgN 3) (msgN 4))) [Cmd.step 0, Cmd.tick 999]).registry "A"
        = none := by
  obtain ⟨h1, h2, h3, h4⟩ := claim_C2_amended (msgN 1) (msgN 2) (msgN 3) (msgN 4)
    [Cmd.step 0, Cmd.tick 999] (by decide)
  exact ⟨h3, h4⟩

/-! ### C3 -/

/-- Spawn a benign actor, stop it, then send through the retained
handle and let the scheduler run. -/
def c3cexCmds : List Cmd :=
  [Cmd.spawn benignSpecB tokB, Cmd.stop "B", Cmd.send 0 (msgN 7), Cmd.step 0]

/-- C3 counterexample: after `stop("B")` the name is gone from the
registry, yet a send through the handle returned by `spawn` still
enqueues and leads to an `onMessage` invocation (one `msgStart` after
the `stopped` event) — the handle is not inert, refuting "any
subsequent send through the handle ... never causes another onMessage
invocation". -/
theorem claim_C3_counterexample :
    lookupReg (run DEFAULT_POLICY c3cexCmds).registry "B" = none
    ∧ countStarts (afterFirstStop "B" (run DEFAULT_POLICY c3cexCmds).log) 0 = 1 :=
  ⟨rfl, rfl⟩

/-- C3 as amended: `stop(name)` removes the name from the registry and
changes nothing else (the `LiveActor` records — mailboxes, contexts,
crash histories — are untouched); but the handle returned by `spawn`
is not inert: the send/dispatch path never consults the registry, so a
message sent through the retained handle after the stop is still
enqueued and still invokes `onMessage`. -/
theorem claim_C3_amended (s : SysState) (name : String) (m : Message) :
    (execCmd s (Cmd.stop name)).live = s.live
    ∧ (execCmd s (Cmd.stop name)).registry = s.registry.filter (fun p => p.1 ≠ name)
    ∧ (execCmd s (Cmd.stop name)).log = s.log ++ [Ev.stopped name]
    ∧ (execCmd s (Cmd.stop name)).time = s.time
    ∧ countStarts (run DEFAULT_POLICY
        [Cmd.spawn benignSpecB tokB, Cmd.stop "B", Cmd.send 0 m, Cmd.step 0]).log 0 = 1 :=
  ⟨rfl, rfl, rfl, rfl, rfl⟩

/-! ### C6 -/

/-- Spawn an actor whose `init` always throws, then let the backoff
elapse and run the re-init. -/
def c6Cmds : List Cmd := [Cmd.spawn badInitSpecI tokI, Cmd.tick 250, Cmd.step 0]

/-- C6: the spawn-time `init` throw IS routed to `handleCrash` (the
`crash` event with the default restart disposition), but when `init` is
re-invoked inside `handleCrash` after the backoff its throw is caught
nowhere — it escapes the kernel as an unhandled rejection (the `escape`
event), contradicting the claim that no such error escapes to the host
process. -/
theorem claim_C6_reinit_error_escapes :
    (run DEFAULT_POLICY c6Cmds).log
      = [Ev.spawned 0 "I", Ev.initStart 0, Ev.initThrew 0, Ev.crash 0 Disposition.restart,
         Ev.initStart 0, Ev.initThrew 0, Ev.escape 0]
    ∧ countEscapes (run DEFAULT_POLICY c6Cmds).log = 1 :=
  ⟨rfl, rfl⟩

/-! ### C7 -/

/-- Spawn the crash-once actor and deliver one message (which crashes
at time 0). -/
def c7aCmds (m1 : Message) : List Cmd :=
  [Cmd.spawn crashOnceSpecB tokB, Cmd.send 0 m1, Cmd.step 0]

/-- ... then send a second message during the backoff window and give
the scheduler a (premature) step before the deadline. -/
def c7bCmds (m1 m2 : Message) : List Cmd :=
  [Cmd.spawn crashOnceSpecB tokB, Cmd.send 0 m1, Cmd.step 0, Cmd.send 0 m2, Cmd.step 0]

/-- ... then let the 250ms backoff elapse, re-run `init` and drain. -/
def c7cCmds (m1 m2 : Message) : List Cmd :=
  [Cmd.spawn crashOnceSpecB tokB, Cmd.send 0 m1, Cmd.step 0, Cmd.send 0 m2, Cmd.step 0,
   Cmd.tick 250, Cmd.step 0, Cmd.step 0]

/-- C7: for an actor with no `onCrash` hook, a crash takes the default
restart disposition: the crash is recorded and the actor enters backoff
until time 0 + 250 (the default `backoffMs`) while staying registered;
a message sent during the backoff window is accepted into the mailbox
but not delivered (a scheduler step before the deadline does nothing);
once the backoff elapses, `init` is re-invoked and the queued message
is delivered only after `init` completes — the full event order being
crash, enqueue, initStart, initOk, msgStart. -/
theorem claim_C7_default_restart_backoff (m1 m2 : Message) :
    (run DEFAULT_POLICY (c7aCmds m1)).live.get? 0
      = some ⟨crashOnceSpecB, tokB, [0], [], Status.backoff 250 true, 1, 1, 1⟩
    ∧ lookupReg (run DEFAULT_POLICY (c7aCmds m1)).registry "B" = some 0
    ∧ (run DEFAULT_POLICY (c7bCmds m1 m2)).live.get? 0
      = some ⟨crashOnceSpecB, tokB, [0], [m2], Status.backoff 250 true, 1, 1, 1⟩
    ∧ countStarts (run DEFAULT_POLICY (c7bCmds m1 m2)).log 0 = 1
    ∧ (run DEFAULT_POLICY (c7cCmds m1 m2)).log
        = [Ev.spawned 0 "B", Ev.initStart 0, Ev.initOk 0, Ev.enq 0 m1, Ev.msgStart 0 m1,
           Ev.msgThrow 0 m1, Ev.crash 0 Disposition.restart, Ev.enq 0 m2, Ev.initStart 0,
           Ev.initOk 0, Ev.msgStart 0 m2, Ev.msgEnd 0 m2]
    ∧ lookupReg (run DEFAULT_POLICY (c7cCmds m1 m2)).registry "B" = some 0 :=
  ⟨rfl, rfl, rfl, rfl, rfl, rfl⟩

/-! ### C9 -/

/-- Run the restart-then-resume actor: one crash at time 0 (restart,
recording timestamp 0), then 60000ms later a second crash whose
disposition is resume — which returns before any pruning. -/
def c9cexCmds : List Cmd :=
  [Cmd.spawn resumeAfterSpecC tokC, Cmd.send 0 (msgN 1), Cmd.step 0,
   Cmd.tick 250, Cmd.step 0, Cmd.step 0, Cmd.tick 60000, Cmd.send 0 (msgN 2), Cmd.step 0]

/-- C9 counterexample: immediately after a `handleCrash` step whose
disposition was resume (the last log event), the live actor's
`crashHistory` is `[0]` while the clock reads 60250 — the entry is
60250ms old, far outside the 60000ms window.  `handleCrash` returns on
resume before pruning, and nothing else ever prunes, refuting "this
holds after every handleCrash step, regardless of which disposition". -/
theorem claim_C9_counterexample :
    ((run DEFAULT_POLICY c9cexCmds).live.get? 0).map (fun la => la.crashes) = some [0]
    ∧ (run DEFAULT_POLICY c9cexCmds).time = 60250
    ∧ (run DEFAULT_POLICY c9cexCmds).log.getLast? = some (Ev.crash 0 Disposition.resume)
    ∧ ¬((run DEFAULT_POLICY c9cexCmds).time - 0
        ≤ (run DEFAULT_POLICY c9cexCmds).policy.windowMs) :=
  ⟨rfl, rfl, rfl, by decide⟩

/-- C9 as amended: only the restart disposition prunes and appends, and
it does keep the window invariant at that instant — immediately after a
`handleCrash` step that took the restart path, every timestamp in the
actor's `crashHistory` lies within `windowMs` of that crash's time.
(Between crashes, and across resume/stop dispositions, entries may grow
stale, as the counterexample shows.) -/
theorem claim_C9_amended (s : SysState) (i : Nat) (la la2 : LiveActor) (rd : Bool)
    (hget : s.live.get? i = some la)
    (hd : crashDisposition la = Disposition.restart)
    (hget2 : (handleCrashUpd s i la rd).live.get? i = some la2) :
    ∀ ts ∈ la2.crashes, s.time - ts ≤ s.policy.windowMs := by
  simp only [handleCrashUpd, hd] at hget2
  split at hget2 <;>
  · rw [get_set_same _ hget] at hget2
    injection hget2 with h2
    subst h2
    exact fun ts hts => recordCrash_within _ _ _ ts hts

/-- A draining always-throwing actor about to crash at time 100 with
one prior crash recorded at time 0. -/
def c9wLive : LiveActor := ⟨alwaysThrowSpec, tokA, [0], [], Status.draining, 1, 0, 0⟩

def c9wState : SysState := ⟨[c9wLive], [("A", 0)], 100, DEFAULT_POLICY, []⟩

/-- The record produced by the restart path of `handleCrash` on
`c9wState`: both timestamps pruned-in, backoff until 350. -/
def c9wLive2 : LiveActor := ⟨alwaysThrowSpec, tokA, [0, 100], [], Status.backoff 350 true, 1, 1, 0⟩

theorem claim_C9_amended_witness :
    c9wState.time - 0 ≤ c9wState.policy.windowMs
    ∧ c9wState.time - 100 ≤ c9wState.policy.windowMs := by
  have h := claim_C9_amended c9wState 0 c9wLive c9wLive2 true rfl rfl rfl
  exact ⟨h 0 (by decide), h 100 (by decide)⟩

/-! ### C4 -/

/-- C4: per-actor FIFO discipline.  (1) In every reachable state, the
messages accepted into an actor's mailbox are exactly the messages
already delivered to `onMessage`, in order, followed by the messages
still queued — so each accepted message is delivered at most once, none
is skipped, and delivery order is send order.  (2) The actor's handler
trace is a sequence of adjacent (start, completion-or-throw) pairs: at
most one `onMessage` invocation is in flight at any time, each awaited
before the next dequeue.  (3) For an actor whose handlers never throw,
one scheduler step per queued message delivers the whole queue, in
order. -/
theorem claim_C4_per_actor_fifo (p : RestartPolicy) (cmds : List Cmd) (i : Nat) :
    (∀ la, (run p cmds).live.get? i = some la →
      enqList (run p cmds).log i = startList (run p cmds).log i ++ la.q)
    ∧ pairedSeq (handlerEvs (run p cmds).log i) = true
    ∧ (∀ la, (run p cmds).live.get? i = some la → la.status = Status.draining →
        (∀ k m, la.spec.msgThrowsOn k m = false) →
        startList (execCmds (run p cmds) (List.replicate la.q.length (Cmd.step i))).log i
          = startList (run p cmds).log i ++ la.q) := by
  refine ⟨fun la hla => (accounted_run p cmds).1 i la hla, ?_, ?_⟩
  · obtain ⟨ps, hps⟩ := paired_run p cmds i
    rw [hps]
    exact pairedSeq_mkPairs i ps
  · intro la hla hst hbenign
    obtain ⟨la2, h1, h2, h3, h4, h5⟩ := drain_benign la.q _ i la hla hst rfl hbenign
    exact h5

/-- Two sends to a benign actor with no scheduler steps yet. -/
def c4wCmds : List Cmd :=
  [Cmd.spawn benignSpecB tokB, Cmd.send 0 (msgN 1), Cmd.send 0 (msgN 2)]

/-- The live record after `c4wCmds`: both messages queued, drain
scheduled. -/
def c4wLive : LiveActor :=
  ⟨benignSpecB, tokB, [], [msgN 1, msgN 2], Status.draining, 0, 0, 0⟩

theorem claim_C4_per_actor_fifo_witness :
    enqList (run DEFAULT_POLICY c4wCmds).log 0
      = startList (run DEFAULT_POLICY c4wCmds).log 0 ++ [msgN 1, msgN 2]
    ∧ pairedSeq (handlerEvs (run DEFAULT_POLICY c4wCmds).log 0) = true
    ∧ startList (execCmds (run DEFAULT_POLICY c4wCmds)
          (List.replicate 2 (Cmd.step 0))).log 0
        = startList (run DEFAULT_POLICY c4wCmds).log 0 ++ [msgN 1, msgN 2] := by
  obtain ⟨h1, h2, h3⟩ := claim_C4_per_actor_fifo DEFAULT_POLICY c4wCmds 0
  exact ⟨h1 c4wLive rfl, h2, h3 c4wLive rfl rfl (fun k m => rfl)⟩

/-! ### C5 -/

/-- C5: the mailbox capacity `spawn` uses is the default 1024; a send
to a mailbox already holding at least `mailboxMax` queued messages
fails with `MailboxOverflow` and changes nothing but the log (nothing
is enqueued, previously queued messages are untouched); a send below
capacity enqueues at the tail and triggers a drain exactly when one is
not already running; and the queued messages of a non-throwing actor
are all still delivered, in order, by the drain. -/
theorem claim_C5_mailbox_overflow (s : SysState) (i : Nat) (la : LiveActor) (m : Message) :
    mailboxMax = 1024
    ∧ (s.live.get? i = some la → la.q.length ≥ mailboxMax →
        execCmd s (Cmd.send i m) = { s with log := s.log ++ [Ev.overflow i m] })
    ∧ (s.live.get? i = some la → la.q.length < mailboxMax →
        execCmd s (Cmd.send i m)
          = { s with
              live := s.live.set i
                { la with
                  q := la.q ++ [m],
                  status := if la.status = Status.idle then Status.draining else la.status },
              log := s.log ++ [Ev.enq i m] })
    ∧ (s.live.get? i = some la → la.status = Status.draining →
        (∀ k m2, la.spec.msgThrowsOn k m2 = false) →
        startList (execCmds s (List.replicate la.q.length (Cmd.step i))).log i
          = startList s.log i ++ la.q) := by
  refine ⟨rfl, ?_, ?_, ?_⟩
  · intro hget hfull
    show sendH s i m = _
    simp only [sendH, hget, sendLive]
    rw [if_pos hfull]
  · intro hget hlt
    show sendH s i m = _
    simp only [sendH, hget, sendLive]
    rw [if_neg (Nat.not_le.mpr hlt)]
  · intro hget hst hbenign
    obtain ⟨la2, h1, h2, h3, h4, h5⟩ := drain_benign la.q s i la hget hst rfl hbenign
    exact h5

/-- A benign actor with a full mailbox (1024 queued messages). -/
def c5FullLive : LiveActor :=
  ⟨benignSpecB, tokB, [], List.replicate mailboxMax (msgN 0), Status.draining, 0, 0, 0⟩

def c5FullState : SysState := ⟨[c5FullLive], [("B", 0)], 0, DEFAULT_POLICY, []⟩

/-- A benign actor with one queued message. -/
def c5SmallLive : LiveActor := ⟨benignSpecB, tokB, [], [msgN 1], Status.draining, 0, 0, 0⟩

def c5SmallState : SysState := ⟨[c5SmallLive], [("B", 0)], 0, DEFAULT_POLICY, []⟩

theorem claim_C5_mailbox_overflow_witness :
    execCmd c5FullState (Cmd.send 0 (msgN 9))
      = { c5FullState with log := c5FullState.log ++ [Ev.overflow 0 (msgN 9)] }
    ∧ execCmd c5SmallState (Cmd.send 0 (msgN 2))
      = { c5SmallState with
          live := c5SmallState.live.set 0
            { c5SmallLive with
              q := c5SmallLive.q ++ [msgN 2],
              status := if c5SmallLive.status = Status.idle then Status.draining
                        else c5SmallLive.status },
          log := c5SmallState.log ++ [Ev.enq 0 (msgN 2)] }
    ∧ startList (execCmds c5SmallState
          (List.replicate c5SmallLive.q.length (Cmd.step 0))).log 0
        = startList c5SmallState.log 0 ++ c5SmallLive.q := by
  refine ⟨?_, ?_, ?_⟩
  · exact (claim_C5_mailbox_overflow c5FullState 0 c5FullLive (msgN 9)).2.1 rfl
      (by simp [c5FullLive])
  · exact (claim_C5_mailbox_overflow c5SmallState 0 c5SmallLive (msgN 2)).2.2.1 rfl
      (by decide)
  · exact (claim_C5_mailbox_overflow c5SmallState 0 c5SmallLive (msgN 2)).2.2.2 rfl rfl
      (fun k m2 => rfl)

/-! ### C8 -/

/-- C8: `spawn` with a name already present in the registry fails with
`ActorAlreadyExists` and mutates no kernel state — the resulting state
is the old one with only the rejection recorded: registry, live
records (mailboxes, contexts, crash histories) and clock all
untouched. -/
theorem claim_C8_spawn_existing_name (s : SysState) (spec : ActorSpec)
    (cap : CapabilityToken) (j : Nat)
    (hlook : lookupReg s.registry spec.name = some j) :
    execCmd s (Cmd.spawn spec cap) = { s with log := s.log ++ [Ev.spawnRejected spec.name] } := by
  show spawnSys s spec cap = _
  simp only [spawnSys, hlook]

def c8wState : SysState := ⟨[c5SmallLive], [("A", 0)], 0, DEFAULT_POLICY, []⟩

theorem claim_C8_spawn_existing_name_witness :
    execCmd c8wState (Cmd.spawn alwaysThrowSpec tokA)
      = { c8wState with log := c8wState.log ++ [Ev.spawnRejected "A"] } :=
  claim_C8_spawn_existing_name c8wState alwaysThrowSpec tokA 0 rfl

end Weft
